import Mathlib

set_option maxRecDepth 16384

/-!
Verification development for the histia browser-agent extraction pipeline.

The Python sources are shallowly embedded: pure string manipulation is
translated directly (Python `str` becomes `String`, operating on `String.data`
character lists so that everything reduces in the kernel); external
collaborators (BeautifulSoup CSS selection, `urllib.parse.urljoin`, the
`re`/`json`/pydantic machinery that is not itself under test, and the
browser/LLM layer) are abstracted as function parameters or interface
structures, so every theorem quantifies over their behaviour.  Machine floats
appear only as parsed decimal literals and are modelled as exact rationals.
Each embedded definition names the Python function it was translated from.
-/

namespace Histia

/-! Python-flavoured string helpers.  `pyLower` models `str.lower`, `pyStrip`
models `str.strip()` (no arguments: ASCII whitespace), `strHas` models the
Python `in` substring test and `strStarts` models `str.startswith`. -/

def isPySpace (c : Char) : Bool :=
  c = ' ' || c = '\t' || c = '\n' || c = '\r' || c = '\x0b' || c = '\x0c'

def trimChars (cs : List Char) : List Char :=
  ((cs.dropWhile isPySpace).reverse.dropWhile isPySpace).reverse

def pyStrip (s : String) : String := String.mk (trimChars s.data)

def pyLower (s : String) : String := String.mk (s.data.map Char.toLower)

def listStarts : List Char → List Char → Bool
  | _, [] => true
  | [], _ :: _ => false
  | c :: cs, p :: ps => c = p && listStarts cs ps

def strStarts (s pre : String) : Bool := listStarts s.data pre.data

def listHasSub (hay needle : List Char) : Bool :=
  match hay with
  | [] => needle.isEmpty
  | _ :: rest => listStarts hay needle || listHasSub rest needle

def strHas (hay needle : String) : Bool := listHasSub hay.data needle.data

/-- Model of pydantic `AnyHttpUrl`: a structured URL object whose `str()` form
is the wrapped string.  Validation of the URL text happens in the external
library and is not modelled. -/
structure AnyHttpUrl where
  toStr : String
deriving DecidableEq, Repr

/-! Dynamic Python values, as produced by `json.loads` and passed around the
loosely typed agent payloads. -/

inductive PyVal where
  | pStr : String → PyVal
  | pNum : Int → PyVal
  | pBool : Bool → PyVal
  | pNone : PyVal
  | pList : List PyVal → PyVal
  | pDict : List (String × PyVal) → PyVal

namespace Listing

/-- Record type of `examples/histia/startup_listing_agent.py`:
`StartupProfile`. -/
structure StartupProfile where
  name : String
  listing_url : Option String := none
  linkedin_url : Option String := none
  description : Option String := none
  short_notes : List String := []
deriving DecidableEq, Repr

/-- Report type of `startup_listing_agent.py`: `StartupListingReport`. -/
structure StartupListingReport where
  source_url : AnyHttpUrl
  startups : List StartupProfile
deriving DecidableEq, Repr

/-- Embeds `startup_listing_agent._fallback_report`.  The second note is the
exact byte sequence found in the source file (it contains a mojibake spelling
of the French text). -/
def fallback_report (source_url reason : String) : StartupListingReport :=
  let r0 := pyStrip reason
  let r := if r0 = "" then "Impossible d\x27obtenir un listing fiable depuis la page." else r0
  { source_url := ⟨source_url⟩
    startups := [{ name := "Informations indisponibles"
                   listing_url := some source_url
                   linkedin_url := none
                   description := none
                   short_notes := [r, "Rapport g√©n√©r√© automatiquement (agent interrompu avant la fin)."] }] }

/-- Embeds the cap step of `run_startup_listing` (lines 729-737): the combined
markdown-extracted list is truncated to `max_startups` only when
`max_startups < 1000`. -/
def cap_startups (max_startups : Nat) (l : List StartupProfile) : List StartupProfile :=
  if max_startups < 1000 then l.take max_startups else l

end Listing

namespace Universal

/-- Record type of `examples/histia/universal_startup_extractor.py`:
`Startup`.  The `additional_info` dict of arbitrary values is modelled with
`PyVal` payloads. -/
structure Startup where
  name : String
  startup_url : Option String := none
  description : Option String := none
  website : Option String := none
  sector : Option String := none
  location : Option String := none
  founded_year : Option Int := none
  employees : Option String := none
  funding_stage : Option String := none
  tags : List String := []
  logo_url : Option String := none
  additional_info : List (String × PyVal) := []

/-- Report type of `universal_startup_extractor.py`: `StartupExtractionReport`. -/
structure StartupExtractionReport where
  source_url : AnyHttpUrl
  startups : List Startup
  pages_visited : List String := []
  extraction_notes : Option String := none

/-- Embeds `universal_startup_extractor._fallback_report`: the startups list
is left EMPTY and the failure reason goes into `extraction_notes`. -/
def fallback_report (source_url reason : String) : StartupExtractionReport :=
  let r0 := pyStrip reason
  let r := if r0 = "" then "Could not extract startups from the page." else r0
  { source_url := ⟨source_url⟩
    startups := []
    pages_visited := []
    extraction_notes := some r }

end Universal

namespace FutureTools

/-- Record type of `examples/histia/futuretools_extractor.py`:
`FutureToolsTool`. -/
structure FutureToolsTool where
  name : String
  tool_url : Option String := none
  category : Option String := none
  description : Option String := none
deriving DecidableEq, Repr

/-- Report type of `futuretools_extractor.py`: `FutureToolsReport`. -/
structure FutureToolsReport where
  source_url : AnyHttpUrl
  tools : List FutureToolsTool
deriving DecidableEq, Repr

/-- Embeds `futuretools_extractor._fallback_report`.  The stripped-or-default
`reason` is computed exactly as in the source and then discarded: no field of
the constructed report stores it. -/
def fallback_report (source_url reason : String) : FutureToolsReport :=
  let r0 := pyStrip reason
  let _r := if r0 = "" then "Impossible d\x27obtenir un listing fiable depuis la page." else r0
  { source_url := ⟨source_url⟩
    tools := [{ name := "Informations indisponibles"
                tool_url := some source_url
                category := none
                description := none }] }

end FutureTools

/-! Shared pieces of the URL helpers.  `urlparse_scheme_netloc` embeds the
part of `urllib.parse.urlparse` the agents use: the (lowercased) scheme and
the network location of an absolute URL.  For strings without a well-formed
`scheme://` head both components are empty, as in `urlparse`. -/

def isSchemeChar (c : Char) : Bool :=
  c.isAlpha || c.isDigit || c = '+' || c = '-' || c = '.'

def splitSchemeAux : List Char → Option (List Char × List Char)
  | [] => none
  | c :: rest =>
    if listStarts (c :: rest) ("://".data) then some ([], (c :: rest).drop 3)
    else
      match splitSchemeAux rest with
      | some (sch, r) => some (c :: sch, r)
      | none => none

def urlparse_scheme_netloc (base : String) : String × String :=
  match splitSchemeAux base.data with
  | some (sch, rest) =>
    if sch ≠ [] && sch.all isSchemeChar then
      (pyLower (String.mk sch),
       String.mk (rest.takeWhile fun c => !(c = '/' || c = '?' || c = '#')))
    else ("", "")
  | none => ("", "")

/-- Collapses every maximal run of whitespace to one space: embeds the Python
substitution of the pattern consisting of one-or-more whitespace by a single
space, as used by `_clean_text`. -/
def collapseWs : List Char → List Char
  | [] => []
  | c :: rest =>
    if isPySpace c then
      match rest with
      | [] => [' ']
      | d :: r2 =>
        if isPySpace d then collapseWs (d :: r2) else ' ' :: collapseWs (d :: r2)
    else c :: collapseWs rest

def digitsVal (ds : List Char) : Nat :=
  ds.foldl (fun a c => a * 10 + (c.toNat - 48)) 0

namespace AppSumo

/-- Record type of `examples/histia/appsumo_hot_extractor.py`:
`AppSumoProduct`.  The float `rating_value` is modelled as an exact
rational. -/
structure AppSumoProduct where
  name : String
  product_url : Option String := none
  category : Option String := none
  category_url : Option String := none
  description : Option String := none
  price : Option String := none
  price_suffix : Option String := none
  original_price : Option String := none
  reviews_count : Option Nat := none
  rating_value : Option Rat := none
  rating_text : Option String := none
  image_url : Option String := none
  badges : List String := []
  appsumo_select : Bool := false
deriving DecidableEq, Repr

/-- Report type of `appsumo_hot_extractor.py`: `AppSumoHotReport`. -/
structure AppSumoHotReport where
  source_url : AnyHttpUrl
  products : List AppSumoProduct
deriving DecidableEq, Repr

/-- Embeds `appsumo_hot_extractor._normalize_url`.  `join` abstracts
`urllib.parse.urljoin`, with `none` standing for the case in which the join
raises (the `except` branch of the source maps that to `None`). -/
def normalize_url (join : String → String → Option String)
    (url : Option String) (base_url : String) : Option String :=
  match url with
  | none => none
  | some u0 =>
    if u0 = "" then none
    else
      let u := pyStrip u0
      if u = "" then none
      else if strStarts u "http://" || strStarts u "https://" then some u
      else if strStarts u "/" then
        let p := urlparse_scheme_netloc base_url
        some (p.1 ++ "://" ++ p.2 ++ u)
      else join base_url u

/-- Embeds `appsumo_hot_extractor._clean_text`. -/
def clean_text (value : Option String) : Option String :=
  match value with
  | none => none
  | some v =>
    if v = "" then none
    else
      let t := pyStrip (String.mk (collapseWs v.data))
      if t = "" then none else some t

/-- Embeds `appsumo_hot_extractor._parse_reviews_count`: first run of digits,
commas allowed inside and stripped. -/
def parse_reviews_count (text : Option String) : Option Nat :=
  match text with
  | none => none
  | some t =>
    if t = "" then none
    else
      match t.data.dropWhile (fun c => !c.isDigit) with
      | [] => none
      | d :: rest =>
        let run := rest.takeWhile (fun c => c.isDigit || c = ',')
        some (digitsVal ((d :: run).filter (fun c => c ≠ ',')))

/-- Embeds `appsumo_hot_extractor._parse_rating_value`: first
floating-point-looking substring, as an exact rational. -/
def parse_rating_value (text : Option String) : Option Rat :=
  match text with
  | none => none
  | some t =>
    if t = "" then none
    else
      match t.data.dropWhile (fun c => !c.isDigit) with
      | [] => none
      | d :: rest =>
        let intRun := d :: rest.takeWhile Char.isDigit
        let r2 := rest.dropWhile Char.isDigit
        match r2 with
        | '.' :: r3 =>
          let frac := r3.takeWhile Char.isDigit
          if frac = [] then some (digitsVal intRun)
          else some ((digitsVal intRun : Rat) + (digitsVal frac : Rat) / ((10 : Rat) ^ frac.length))
        | _ => some (digitsVal intRun)

/-- A DOM element as seen through BeautifulSoup: its `get_text()` result and
its attribute map (attribute values can be strings or lists, as in BS4). -/
structure Elem where
  text : String
  attr : String → Option PyVal

/-- Abstract interface to a parsed `BeautifulSoup(html, 'html.parser')`
document; CSS selection itself is an external collaborator.  `img_star_alt`
is the first `img` whose `alt` contains `star` (case-insensitively),
`stars_string` the first text node matching the `stars?` word pattern, and
`div_spans` the `div span` selection in document order. -/
structure Soup where
  select_one : String → Option Elem
  img_star_alt : Option Elem
  stars_string : Option String
  div_spans : List Elem

def getStr : PyVal → Option String
  | .pStr s => some s
  | _ => none

/-- Embeds `appsumo_hot_extractor._safe_attr`. -/
def safe_attr (element : Option Elem) (attr_name : String) : Option String :=
  match element with
  | none => none
  | some el =>
    match el.attr attr_name with
    | some (PyVal.pList items) =>
      let t := pyStrip (String.intercalate " " (items.filterMap getStr))
      if t = "" then none else some t
    | some (PyVal.pStr v) => some v
    | _ => none

/-- Embeds `appsumo_hot_extractor._extract_badges`. -/
def badges_loop : List Elem → List String
  | [] => []
  | sp :: rest =>
    match clean_text (some sp.text) with
    | none => badges_loop rest
    | some t =>
      let lower := pyLower t
      if strHas lower "price" || strHas lower "black friday" || strHas lower "ending soon" then
        t :: badges_loop rest
      else badges_loop rest

def extract_badges (soup : Soup) : List String := badges_loop soup.div_spans

/-- Embeds `appsumo_hot_extractor._extract_rating_info`. -/
def extract_rating_info (soup : Soup) : Option Rat × Option String :=
  match soup.img_star_alt with
  | some img =>
    let raw := clean_text (safe_attr (some img) "alt")
    (parse_rating_value raw, raw)
  | none =>
    match soup.stars_string with
    | some s =>
      let t := clean_text (some s)
      (parse_rating_value t, t)
    | none => (none, none)

def name_selectors : List String :=
  ["span.sr-only", "span.font-bold", "a[aria-label]"]

/-- The name-selection loop of `_parse_product_card`: the first selector whose
element yields non-empty cleaned text wins. -/
def name_from_selectors (soup : Soup) : List String → Option String
  | [] => none
  | sel :: rest =>
    match soup.select_one sel with
    | some el =>
      match clean_text (some el.text) with
      | some n => some n
      | none => name_from_selectors soup rest
    | none => name_from_selectors soup rest

def image_selectors (name : String) : List String :=
  ["img.aspect-sku-card", "img.rounded-t", "img[alt=\"" ++ name ++ "\"]", "img[decoding=\"async\"]"]

def image_elem_loop (soup : Soup) : List String → Option Elem
  | [] => none
  | sel :: rest =>
    match soup.select_one sel with
    | some e => some e
    | none => image_elem_loop soup rest

/-- Embeds `appsumo_hot_extractor._parse_product_card`.  `soup_of` is not
applied here: the caller passes the soup of the fragment; `join` abstracts
`urljoin` as in `normalize_url`. -/
def parse_product_card (soup : Soup) (join : String → String → Option String)
    (html_section : String) (source_url : String) : Option AppSumoProduct :=
  if html_section = "" then none
  else
    match name_from_selectors soup name_selectors with
    | none => none
    | some name =>
      let link_elem := soup.select_one "a[href^=\"/products/\"]"
      let product_url := normalize_url join (safe_attr link_elem "href") source_url
      let category_link := soup.select_one "span a[href*=\"/software/\"], span a[href*=\"/courses/\"], span a[href*=\"/creative/\"]"
      let category := clean_text (category_link.map (fun e => e.text))
      let category_url := normalize_url join (safe_attr category_link "href") source_url
      let description_elem := soup.select_one "div[class*=\"line-clamp\"], div[class*=\"text-center\"] div[class*=\"line-clamp\"]"
      let description := clean_text (description_elem.map (fun e => e.text))
      let price_elem := soup.select_one "#deal-price"
      let price := clean_text (price_elem.map (fun e => e.text))
      let price_suffix_elem := soup.select_one "#deal-price-suffix"
      let price_suffix := clean_text (price_suffix_elem.map (fun e => e.text))
      let original_price_elem := soup.select_one "#deal-price-original"
      let original_price := clean_text (original_price_elem.map (fun e => e.text))
      let reviews_link := soup.select_one "a[href*=\"#reviews\"] span, a[href*=\"#reviews\"]"
      let reviews_count := parse_reviews_count (reviews_link.map (fun e => e.text))
      let rating := extract_rating_info soup
      let image_elem0 := image_elem_loop soup (image_selectors name)
      let image_elem :=
        match image_elem0 with
        | some e => some e
        | none => soup.select_one "img[alt][src^=\"http\"], img[data-nimg]"
      let image_url := normalize_url join (safe_attr image_elem "src") source_url
      let appsumo_select := (soup.select_one "img[alt=\"AppSumo Select\"]").isSome
      let badges := extract_badges soup
      some { name := name
             product_url := product_url
             category := category
             category_url := category_url
             description := description
             price := price
             price_suffix := price_suffix
             original_price := original_price
             reviews_count := reviews_count
             rating_value := rating.1
             rating_text := rating.2
             image_url := image_url
             badges := badges
             appsumo_select := appsumo_select }

/-- The per-fragment loop of `appsumo_hot_extractor._parse_html_sections`:
non-strings are skipped, fragments are parsed, and a seen-set of lowercased
names drops later duplicates.  `parse` stands for
`fun s => _parse_product_card s source_url`. -/
def parse_sections_loop (parse : String → Option AppSumoProduct) :
    List String → List PyVal → List AppSumoProduct
  | _, [] => []
  | seen, v :: rest =>
    match v with
    | PyVal.pStr s =>
      match parse s with
      | none => parse_sections_loop parse seen rest
      | some product =>
        let name_key := pyLower product.name
        if seen.contains name_key then parse_sections_loop parse seen rest
        else product :: parse_sections_loop parse (name_key :: seen) rest
    | _ => parse_sections_loop parse seen rest

/-- Embeds `appsumo_hot_extractor._parse_html_sections`.  `jsonLoads`
abstracts `json.loads` (`none` = `JSONDecodeError`); `parse` abstracts the
per-card parser specialised to `source_url`. -/
def parse_html_sections (jsonLoads : String → Option PyVal)
    (parse : String → Option AppSumoProduct)
    (html_sections : PyVal) (source_url : String) : Option AppSumoHotReport :=
  let hs :=
    match html_sections with
    | PyVal.pStr s =>
      match jsonLoads s with
      | some v => v
      | none => PyVal.pList [PyVal.pStr s]
    | other => other
  match hs with
  | PyVal.pList l =>
    let products := parse_sections_loop parse [] l
    if products = [] then none
    else some { source_url := ⟨source_url⟩, products := products }
  | _ => none

/-- Embeds the truncation step of `run_appsumo_hot_extraction` (the
`max_products` cap applied to a successful direct-parse report). -/
def cap_products (max_products : Nat) (rep : AppSumoHotReport) : AppSumoHotReport :=
  if max_products < rep.products.length then
    { rep with products := rep.products.take max_products }
  else rep

end AppSumo

/-! Leftmost-first regex search for the URL-shaped patterns used by
`startup_listing_agent`: each pattern is an ordered list of alternatives, an
alternative being a literal head followed by a non-empty run of characters
from a class.  The scan tries all alternatives at each position, moving right
on failure, exactly like the `re.search` calls it embeds. -/

def matchPrefRun (pre : List Char) (ok : Char → Bool) (cs : List Char) : Option (List Char) :=
  if listStarts cs pre then
    let run := (cs.drop pre.length).takeWhile ok
    if run = [] then none else some (pre ++ run)
  else none

def firstAlt : List (List Char × (Char → Bool)) → List Char → Option (List Char)
  | [], _ => none
  | (pre, ok) :: more, cs =>
    match matchPrefRun pre ok cs with
    | some m => some m
    | none => firstAlt more cs

def scanAlts (alts : List (List Char × (Char → Bool))) : List Char → Option (List Char)
  | [] => none
  | c :: rest =>
    match firstAlt alts (c :: rest) with
    | some m => some m
    | none => scanAlts alts rest

def noWsSlash (c : Char) : Bool := !(isPySpace c || c = '/')

def noWsStar (c : Char) : Bool := !(isPySpace c || c = '*')

/-- The `www.`-or-`http(s)://` host-prefix search used by `_sanitize_report`
(the `www` alternative comes first, and the character class excludes `/`). -/
def sanitize_url_search (s : String) : Option String :=
  (scanAlts [("www.".data, noWsSlash), ("https://".data, noWsSlash), ("http://".data, noWsSlash)] s.data).map String.mk

/-- The website-URL search of the `**Website**` branch (the `http(s)`
alternative first, then `www.`; the class excludes whitespace and `*`). -/
def website_url_search (s : String) : Option String :=
  (scanAlts [("https://".data, noWsStar), ("http://".data, noWsStar), ("www.".data, noWsStar)] s.data).map String.mk

/-- The search for an `http(s)` URL only, used by the LinkedIn branch. -/
def http_url_search (s : String) : Option String :=
  (scanAlts [("https://".data, noWsStar), ("http://".data, noWsStar)] s.data).map String.mk

namespace Listing

/-- Embeds `startup_listing_agent._normalize_linkedin_url`. -/
def normalize_linkedin_url (value : Option String) : Option String :=
  match value with
  | none => none
  | some v0 =>
    if v0 = "" then none
    else
      let url := pyStrip v0
      if url = "" then none
      else if !(strStarts (pyLower url) "http://" || strStarts (pyLower url) "https://") then none
      else
        let netloc := (urlparse_scheme_netloc url).2
        if netloc = "" then none
        else if !strHas (pyLower netloc) "linkedin.com" then none
        else some url

/-- Embeds `startup_listing_agent._normalize_listing_url`.  Note the one
difference from the AppSumo variant: when the join raises, the original value
is returned unchanged instead of `None`. -/
def normalize_listing_url (join : String → String → Option String)
    (url : Option String) (base_url : String) : Option String :=
  match url with
  | none => none
  | some u0 =>
    if u0 = "" then none
    else
      let u := pyStrip u0
      if u = "" then none
      else if strStarts u "http://" || strStarts u "https://" then some u
      else if strStarts u "/" then
        let p := urlparse_scheme_netloc base_url
        some (p.1 ++ "://" ++ p.2 ++ u)
      else
        match join base_url u with
        | some r => some r
        | none => some u

/-- The per-startup body of `startup_listing_agent._sanitize_report`. -/
def sanitize_startup (join : String → String → Option String)
    (base_url : String) (s : StartupProfile) : StartupProfile :=
  let linkedin := normalize_linkedin_url s.linkedin_url
  let listing :=
    match s.listing_url with
    | none => none
    | some l =>
      if l = "" then some l
      else if !strStarts l "http://" && !strStarts l "https://" then
        normalize_listing_url join (some l) base_url
      else if l ≠ base_url then
        match sanitize_url_search l with
        | some extracted => some (if strStarts extracted "http" then extracted else "https://" ++ extracted)
        | none => some l
      else some l
  let notes := (s.short_notes.map pyStrip).filter (fun n => n ≠ "")
  { s with linkedin_url := linkedin, listing_url := listing, short_notes := notes }

/-- Embeds `startup_listing_agent._sanitize_report`. -/
def sanitize_report (join : String → String → Option String)
    (report : StartupListingReport) : StartupListingReport :=
  let base_url := report.source_url.toStr
  { report with startups := report.startups.map (sanitize_startup join base_url) }

/-! The markdown recovery parser `_parse_extracted_markdown`.  The two
table-header regexes are abstracted as `table_search` (returning the rows
capture group); everything else is embedded. -/

def splitChar (sep : Char) : List Char → List (List Char)
  | [] => [[]]
  | c :: rest =>
    let r := splitChar sep rest
    if c = sep then [] :: r
    else
      match r with
      | h :: t => (c :: h) :: t
      | [] => [[c]]

def splitCommaSemi : List Char → List (List Char)
  | [] => [[]]
  | c :: rest =>
    let r := splitCommaSemi rest
    if c = ',' || c = ';' then [] :: r
    else
      match r with
      | h :: t => (c :: h) :: t
      | [] => [[c]]

def pyIsDigit (s : String) : Bool := s.data ≠ [] && s.data.all Char.isDigit

/-- One row of the markdown-table branch of `_parse_extracted_markdown`. -/
def parse_table_row (row : String) : Option StartupProfile :=
  let rs := pyStrip row
  if rs = "" || !strStarts rs "|" then none
  else
    let parts := (splitChar '|' row.data).map (fun p => pyStrip (String.mk p))
    if parts.length ≥ 5 then
      let rank := pyStrip (parts.getD 1 "")
      let name := pyStrip (parts.getD 2 "")
      let url := pyStrip (parts.getD 3 "")
      let description := pyStrip (parts.getD 4 "")
      let tags := if parts.length > 5 then pyStrip (parts.getD 5 "") else ""
      if pyLower name = "name" || pyLower name = "product" || pyLower name = "title"
          || pyLower rank = "rank" || !pyIsDigit rank then none
      else if name ≠ "" then
        let listing_url :=
          if url ≠ "" then
            if strStarts url "/" then some ("https://www.producthunt.com" ++ url)
            else if strStarts url "http" then some url
            else if strStarts url "producthunt.com" then some ("https://www." ++ url)
            else none
          else none
        let short_notes :=
          if tags ≠ "" then
            ((splitCommaSemi tags.data).map (fun t => pyStrip (String.mk t))).filter (fun t => t ≠ "")
          else []
        some { name := name
               listing_url := listing_url
               linkedin_url := none
               description := if description ≠ "" && !(pyLower description = "null" || pyLower description = "n/a" || pyLower description = "") then some description else none
               short_notes := short_notes }
      else none
    else none

def parse_table_rows (blob : String) : List StartupProfile :=
  ((splitChar '\n' (pyStrip blob).data).map String.mk).filterMap parse_table_row

/-- The in-flight record dict of the line-oriented branch; `description` can
be the empty string, as in the Python dict. -/
structure CurrentStartup where
  name : String
  listing_url : Option String := none
  linkedin_url : Option String := none
  description : Option String := none
  short_notes : List String := []
deriving DecidableEq, Repr

def cur_to_profile (c : CurrentStartup) : StartupProfile :=
  { name := c.name
    listing_url := c.listing_url
    linkedin_url := c.linkedin_url
    description := c.description
    short_notes := c.short_notes }

/-- Appending the previous record: only done when the dict has a non-empty
name (the `current_startup.get('name')` truthiness check); pydantic
validation of the dict always succeeds here since the fields already carry
the right types. -/
def push_current (acc : List StartupProfile) (cur : Option CurrentStartup) : List StartupProfile :=
  match cur with
  | some c => if c.name != "" then acc ++ [cur_to_profile c] else acc
  | none => acc

/-- The numbered-name line pattern (digits, a dot, optional space, the bold
`Name` label with the colon outside, then the name text).  Because the line
has already been right-stripped, the captured group stripped equals the
stripped remainder. -/
def match_numbered_name (cs : List Char) : Option String :=
  let ds := cs.takeWhile Char.isDigit
  if ds = [] then none
  else
    match cs.drop ds.length with
    | '.' :: r1 =>
      let r2 := r1.dropWhile isPySpace
      if listStarts r2 ("**Name**:".data) then
        let r3 := r2.drop 9
        if r3 = [] then none else some (String.mk (trimChars r3))
      else none
    | _ => none

/-- Search for the bold `Name` label with the colon inside the stars followed
by the name text. -/
def search_name_colon : List Char → Option String
  | [] => none
  | c :: rest =>
    if listStarts (c :: rest) ("**Name:**".data) then
      let r := (c :: rest).drop 9
      if r ≠ [] then some (String.mk (trimChars r)) else search_name_colon rest
    else search_name_colon rest

/-- The optional `EN` suffix of the bold `Description` label: the greedy
optional group tries the spaced `EN` form first, then the bare colon. -/
def match_desc_tail (r : List Char) : Option (List Char) :=
  let wsRun := r.takeWhile isPySpace
  let afterWs := r.drop wsRun.length
  if wsRun ≠ [] && listStarts afterWs ("EN:**".data) then some (afterWs.drop 5)
  else if listStarts r (":**".data) then some (r.drop 3)
  else none

def search_desc : List Char → Option String
  | [] => none
  | c :: rest =>
    if listStarts (c :: rest) ("**Description".data) then
      match match_desc_tail ((c :: rest).drop 13) with
      | some r2 =>
        if r2 ≠ [] then some (String.mk (trimChars r2)) else search_desc rest
      | none => search_desc rest
    else search_desc rest

/-- Search for a bold field label (a starred run without inner stars, the
colon outside) and its value. -/
def search_field : List Char → Option (String × String)
  | [] => none
  | c :: rest =>
    if listStarts (c :: rest) ("**".data) then
      let body := (c :: rest).drop 2
      let run := body.takeWhile (fun ch => ch ≠ '*')
      if run ≠ [] && listStarts (body.drop run.length) ("**:".data) then
        let r2 := body.drop (run.length + 3)
        if r2 ≠ [] then some (String.mk (trimChars run), String.mk (trimChars r2))
        else search_field rest
      else search_field rest
    else search_field rest

/-- The lazy split of a bullet note at its first usable colon (group one must
be non-empty and something must follow the colon); `pre` accumulates the
reversed prefix consumed so far. -/
def note_split_from (pre : List Char) : List Char → Option (String × String)
  | [] => none
  | c :: rest =>
    if c = ':' && pre ≠ [] && rest ≠ [] then
      some (String.mk (trimChars pre.reverse), String.mk (trimChars rest))
    else note_split_from (c :: pre) rest

def match_note (cs : List Char) : Option (String × String) :=
  match cs with
  | '*' :: body => note_split_from [] body
  | _ => none

def strEnds (s suf : String) : Bool := listStarts s.data.reverse suf.data.reverse

def stripStarChars (cs : List Char) : List Char :=
  ((cs.dropWhile (fun c => c = '*')).reverse.dropWhile (fun c => c = '*')).reverse

/-- State of the line-oriented branch of `_parse_extracted_markdown`. -/
structure LineState where
  startups : List StartupProfile
  current : Option CurrentStartup
  in_description : Bool
  in_short_notes : Bool

def null_desc_values : List String :=
  ["null", "(no description provided)", "(information not available)", "(not available)"]

def null_field_values : List String :=
  ["null", "(not specified)", "(not available)", "(no description provided)"]

def null_note_values : List String :=
  ["null", "(not specified)", "(not available)"]

/-- The tail of the per-line body: the field-parsing section guarded by
`current_startup` having a name. -/
def field_section (st : LineState) (ls : String) (indent : Nat) : LineState :=
  match st.current with
  | none => st
  | some c =>
    if c.name == "" then st
    else if strHas ls "**Website URL:**" || strHas ls "**Website:**" || strHas ls "**Website URL**:" then
      let c2 :=
        match website_url_search ls with
        | some url => { c with listing_url := some (if strStarts url "http" then url else "https://" ++ url) }
        | none => c
      { st with current := some c2, in_description := false, in_short_notes := false }
    else if strHas ls "**Description EN:**" || strHas ls "**Description:**" || strHas ls "**Description EN**:" then
      let c2 :=
        match search_desc ls.data with
        | some d =>
          if null_desc_values.contains (pyLower d) then { c with description := none }
          else { c with description := some d }
        | none => { c with description := some "" }
      { st with current := some c2, in_description := true, in_short_notes := false }
    else if strHas ls "**LinkedIn" || strHas ls "**LinkedIn URL:**" || strHas ls "**LinkedIn URL**:" then
      let c2 :=
        if strHas (pyLower ls) "null" then { c with linkedin_url := none }
        else
          match http_url_search ls with
          | some url => { c with linkedin_url := some url }
          | none => c
      { st with current := some c2, in_description := false, in_short_notes := false }
    else if strHas ls "**Short Notes:**" || strHas ls "**Short Notes**:" then
      { st with in_description := false, in_short_notes := true }
    else if st.in_description && !strStarts ls "*" && !strHas ls "**" then
      let c2 :=
        match c.description with
        | some d =>
          if d ≠ "" then { c with description := some (d ++ " " ++ ls) }
          else { c with description := some ls }
        | none => { c with description := some ls }
      { st with current := some c2 }
    else if !st.in_description && !st.in_short_notes && (strStarts ls "*" || indent > 0)
        && strHas ls "**" && strHas ls ":" then
      match search_field ls.data with
      | some (fname, fval) =>
        if strHas fname "URL" || strHas fname "Website" || strHas fname "LinkedIn"
            || strHas fname "Description" || strHas fname "Name" then st
        else if null_field_values.contains (pyLower fval) then st
        else if fval ≠ "" then
          { st with current := some { c with short_notes := c.short_notes ++ [fname ++ ": " ++ fval] } }
        else st
      | none => st
    else if st.in_short_notes && indent > 0 && strStarts ls "*" then
      match match_note ls.data with
      | some (nname, nval) =>
        if null_note_values.contains (pyLower nval) then st
        else { st with current := some { c with short_notes := c.short_notes ++ [nname ++ ": " ++ nval] } }
      | none => st
    else if st.in_description && strStarts ls "*" && strHas ls "**" then
      { st with in_description := false }
    else st

/-- One iteration of the line loop of `_parse_extracted_markdown`. -/
def step_line (st : LineState) (line : String) : LineState :=
  let ls := pyStrip line
  let indent := (line.data.takeWhile isPySpace).length
  if ls == "" then st
  else
    match match_numbered_name ls.data with
    | some nm =>
      { startups := push_current st.startups st.current
        current := some { name := nm }
        in_description := false
        in_short_notes := false }
    | none =>
      if strStarts ls "**" && strEnds ls "**" && ls.data.length > 4 then
        if strHas ls "Fiche" || strHas (pyLower ls) "galerie" || strHas ls "Short Notes" || strHas ls "Notes" then st
        else
          { startups := push_current st.startups st.current
            current := some { name := pyStrip (String.mk (stripStarChars ls.data)) }
            in_description := false
            in_short_notes := false }
      else if strHas ls "**Name:**" || strHas ls "**Name**:" then
        match search_name_colon ls.data with
        | some nv =>
          match st.current with
          | some c =>
            if c.name != "" then { st with current := some { c with name := nv } }
            else
              { startups := push_current st.startups st.current
                current := some { name := nv }
                in_description := false
                in_short_notes := false }
          | none =>
            { startups := push_current st.startups st.current
              current := some { name := nv }
              in_description := false
              in_short_notes := false }
        | none => field_section st ls indent
      else field_section st ls indent

/-- The line-oriented branch of `_parse_extracted_markdown`. -/
def parse_markdown_lines (content : String) (source_url : String) : Option StartupListingReport :=
  let lines := (splitChar '\n' content.data).map String.mk
  let final := lines.foldl step_line { startups := [], current := none, in_description := false, in_short_notes := false }
  let startups := push_current final.startups final.current
  if startups ≠ [] then some { source_url := ⟨source_url⟩, startups := startups } else none

/-- Embeds `startup_listing_agent._parse_extracted_markdown`.  `table_search`
abstracts the two table-header regexes (it returns the captured rows text of
the first matching pattern). -/
def parse_extracted_markdown (table_search : String → Option String)
    (content : String) (source_url : String) : Option StartupListingReport :=
  match table_search content with
  | some blob =>
    let startups := parse_table_rows blob
    if startups ≠ [] then some { source_url := ⟨source_url⟩, startups := startups }
    else parse_markdown_lines content source_url
  | none => parse_markdown_lines content source_url

/-! The recovery chain of `run_startup_listing` after the agent has run. -/

/-- The inner dedup loop of the combined-extraction state: a startup is added
when its name is non-empty and not yet seen (exact, case-sensitive match);
returns the grown seen-set and the added records in order. -/
def add_startups (seen : List String) : List StartupProfile → List String × List StartupProfile
  | [] => (seen, [])
  | s :: rest =>
    if s.name != "" && !seen.contains s.name then
      let r := add_startups (s.name :: seen) rest
      (r.1, s :: r.2)
    else add_startups seen rest

/-- The chronological combine loop over all extraction outputs. -/
def combine_go (parseMd : String → Option StartupListingReport) :
    List String → List String → List StartupProfile
  | _, [] => []
  | seen, content :: rest =>
    if content = "" then combine_go parseMd seen rest
    else
      match parseMd content with
      | some rep =>
        if rep.startups ≠ [] then
          let r := add_startups seen rep.startups
          r.2 ++ combine_go parseMd r.1 rest
        else combine_go parseMd seen rest
      | none => combine_go parseMd seen rest

def combine_extracted (parseMd : String → Option StartupListingReport)
    (contents : List String) : List StartupProfile :=
  combine_go parseMd [] contents

/-- External collaborators of the recovery chain: pydantic JSON validation,
the fenced-JSON and raw-object regexes, the table regexes, the done-payload
validation (with its URL stringification), and `urljoin`. -/
structure ChainEnv where
  validate_json : String → Option StartupListingReport
  fenced_json : String → Option String
  raw_json : String → Option String
  table_search : String → Option String
  validate_done : PyVal → Option StartupListingReport
  join : String → String → Option String

/-- The parts of the agent history the chain consumes, in chronological
order. -/
structure AgentHistory where
  structured_output : Option StartupListingReport
  final_result : Option String
  extracted_content : List String
  done_datas : List PyVal

/-- State six: the newest-first walk over `done` action payloads, ending in
the sentinel fallback report (the failure string is the exact byte sequence
of the source). -/
def recover_from_done (env : ChainEnv) (source_url : String) : List PyVal → StartupListingReport
  | [] => fallback_report source_url "L\x27agent a √©t√© interrompu avant de finaliser le JSON."
  | d :: rest =>
    match env.validate_done d with
    | some rep => sanitize_report env.join rep
    | none => recover_from_done env source_url rest

/-- The JSON attempts made on a single extraction output in the individual
fallback loop. -/
def content_json_report (env : ChainEnv) (content : String) : Option StartupListingReport :=
  match env.validate_json content with
  | some rep => some rep
  | none =>
    let fromFenced :=
      match env.fenced_json content with
      | some block => env.validate_json block
      | none => none
    match fromFenced with
    | some rep => some rep
    | none =>
      match env.raw_json content with
      | some block => env.validate_json block
      | none => none

def content_report (env : ChainEnv) (source_url content : String) : Option StartupListingReport :=
  match parse_extracted_markdown env.table_search content source_url with
  | some rep => if rep.startups ≠ [] then some rep else content_json_report env content
  | none => content_json_report env content

/-- State four/five fallback: the newest-first walk over individual
extraction outputs. -/
def recover_individual (env : ChainEnv) (source_url : String) (done_rev : List PyVal) :
    List String → StartupListingReport
  | [] => recover_from_done env source_url done_rev
  | content :: rest =>
    if content = "" then recover_individual env source_url done_rev rest
    else
      match content_report env source_url content with
      | some rep => sanitize_report env.join rep
      | none => recover_individual env source_url done_rev rest

/-- Embeds the recovery chain of `run_startup_listing` (everything after
`agent.run()`): structured output, final text as JSON, fenced JSON, the
combined markdown extraction state, the individual-content fallback, the
done-payload state, and finally the sentinel fallback. -/
def run_startup_listing_recover (env : ChainEnv) (h : AgentHistory)
    (input_url : String) (max_startups : Nat) : StartupListingReport :=
  match h.structured_output with
  | some rep => sanitize_report env.join rep
  | none =>
    let afterFinal :=
      match h.final_result with
      | some fr =>
        if fr = "" then none
        else
          match env.validate_json fr with
          | some rep => some rep
          | none =>
            match env.fenced_json fr with
            | some block => env.validate_json block
            | none => none
      | none => none
    match afterFinal with
    | some rep => sanitize_report env.join rep
    | none =>
      let all := combine_extracted (fun c => parse_extracted_markdown env.table_search c input_url) h.extracted_content
      if all ≠ [] then
        sanitize_report env.join { source_url := ⟨input_url⟩, startups := cap_startups max_startups all }
      else
        recover_individual env input_url h.done_datas.reverse h.extracted_content.reverse

end Listing

namespace Api

/-! Embedding of `fastapi_agents._is_fallback_report` and the decision logic
of the dynamically created `run_agent` endpoint.  The duck-typed
`report.model_dump()` dictionaries are modelled by `ReportDict`: an absent
key is `none`, and record entries carry the keys the checks read
(`.get('name')`, `.get('short_notes', [])`, `.get('product_name')`,
`.get('other_facts', [])`). -/

structure StartupEntryDict where
  name : Option String
  short_notes : List String
deriving DecidableEq, Repr

structure ProductEntryDict where
  name : Option String
  product_name : Option String
deriving DecidableEq, Repr

structure CompanyDict where
  other_facts : List String
deriving DecidableEq, Repr

structure ReportDict where
  startups : Option (List StartupEntryDict)
  products : Option (List ProductEntryDict)
  company : Option CompanyDict
deriving DecidableEq, Repr

/-- Embeds `fastapi_agents._is_fallback_report`: the four early-return checks
become a disjunction, in source order. -/
def is_fallback_report (d : ReportDict) : Bool :=
  (match d.startups with
   | some [st] =>
     st.name == some "Informations indisponibles"
       && st.short_notes.any (fun note => strHas (pyLower note) "interrompu" || strHas (pyLower note) "fallback")
   | _ => false)
  ||
  (match d.company, d.products with
   | some comp, some [p] =>
     p.product_name == some "Informations indisponibles"
       && comp.other_facts.any (fun fact => strHas (pyLower fact) "interrompu")
   | _, _ => false)
  ||
  (match d.products with
   | some [p] => p.name == some "Informations indisponibles"
   | _ => false)
  ||
  (match d.startups with
   | some [st] => st.name == some "Informations indisponibles"
   | _ => false)

structure PartialBody where
  report : ReportDict
  warning : String
  success : Bool
  message : String
deriving DecidableEq, Repr

inductive EndpointResult where
  | status200 : ReportDict → EndpointResult
  | status206 : PartialBody → EndpointResult
  | status500 : String → EndpointResult
deriving DecidableEq, Repr

/-- Embeds the result-handling body of the `run_agent` endpoint created by
`fastapi_agents._create_agent_endpoint`: `None` becomes a 500, a detected
fallback report becomes a 206 with the four-key body, anything else is a 200
with the report itself.  The surrounding exception-to-400/500 translation is
an external control-flow concern that is not modelled. -/
def run_agent_endpoint (result : Option ReportDict) : EndpointResult :=
  match result with
  | none => EndpointResult.status500 "L\x27agent n\x27a pas pu générer de rapport. Vérifiez les logs pour plus de détails."
  | some r =>
    if is_fallback_report r then
      EndpointResult.status206
        { report := r
          warning := "L\x27agent a été interrompu avant de finaliser l\x27extraction. Le rapport contient des données partielles ou un rapport de fallback."
          success := false
          message := "Vérifiez les logs du serveur pour plus de détails sur l\x27échec de l\x27extraction." }
    else EndpointResult.status200 r

/-- The `model_dump` view of a `StartupListingReport`, restricted to the keys
`_is_fallback_report` reads. -/
def sl_report_dict (r : Listing.StartupListingReport) : ReportDict :=
  { startups := some (r.startups.map fun s => { name := some s.name, short_notes := s.short_notes })
    products := none
    company := none }

/-- The `model_dump` view of a `FutureToolsReport`: its records live under a
`tools` key, so none of the keys `_is_fallback_report` reads is present. -/
def ft_report_dict (_r : FutureTools.FutureToolsReport) : ReportDict :=
  { startups := none, products := none, company := none }

/-- The `model_dump` view of a `StartupExtractionReport`: its `startups`
entries carry no `short_notes` key, so the dict `.get` default `[]`
applies. -/
def use_report_dict (r : Universal.StartupExtractionReport) : ReportDict :=
  { startups := some (r.startups.map fun s => { name := some s.name, short_notes := [] })
    products := none
    company := none }

end Api

namespace Dump

/-! Embedding of the `model_dump` overrides of `StartupListingReport` and
`StartupExtractionReport`: the base pydantic dump keeps the structured URL
object under `source_url`, and the override coerces it to its string form. -/

inductive DumpVal where
  | vStr : String → DumpVal
  | vUrl : AnyHttpUrl → DumpVal
  | vNone : DumpVal
  | vBool : Bool → DumpVal
  | vInt : Int → DumpVal
  | vList : List DumpVal → DumpVal
  | vDict : List (String × DumpVal) → DumpVal

mutual

def hasUrl : DumpVal → Bool
  | DumpVal.vStr _ => false
  | DumpVal.vUrl _ => true
  | DumpVal.vNone => false
  | DumpVal.vBool _ => false
  | DumpVal.vInt _ => false
  | DumpVal.vList l => hasUrlList l
  | DumpVal.vDict l => hasUrlPairs l

def hasUrlList : List DumpVal → Bool
  | [] => false
  | v :: rest => hasUrl v || hasUrlList rest

def hasUrlPairs : List (String × DumpVal) → Bool
  | [] => false
  | kv :: rest => hasUrl kv.2 || hasUrlPairs rest

end

mutual

def pyToDump : PyVal → DumpVal
  | PyVal.pStr s => DumpVal.vStr s
  | PyVal.pNum n => DumpVal.vInt n
  | PyVal.pBool b => DumpVal.vBool b
  | PyVal.pNone => DumpVal.vNone
  | PyVal.pList l => DumpVal.vList (pyToDumpList l)
  | PyVal.pDict l => DumpVal.vDict (pyToDumpPairs l)

def pyToDumpList : List PyVal → List DumpVal
  | [] => []
  | v :: rest => pyToDump v :: pyToDumpList rest

def pyToDumpPairs : List (String × PyVal) → List (String × DumpVal)
  | [] => []
  | kv :: rest => (kv.1, pyToDump kv.2) :: pyToDumpPairs rest

end

def optStr : Option String → DumpVal
  | some s => DumpVal.vStr s
  | none => DumpVal.vNone

def optInt : Option Int → DumpVal
  | some n => DumpVal.vInt n
  | none => DumpVal.vNone

def sl_profile_dump (s : Listing.StartupProfile) : DumpVal :=
  DumpVal.vDict
    [("name", DumpVal.vStr s.name),
     ("listing_url", optStr s.listing_url),
     ("linkedin_url", optStr s.linkedin_url),
     ("description", optStr s.description),
     ("short_notes", DumpVal.vList (s.short_notes.map DumpVal.vStr))]

/-- The base `super().model_dump()` of `StartupListingReport`: without
serialisers the structured URL object survives under `source_url`. -/
def sl_base_model_dump (r : Listing.StartupListingReport) : List (String × DumpVal) :=
  [("source_url", DumpVal.vUrl r.source_url),
   ("startups", DumpVal.vList (r.startups.map sl_profile_dump))]

/-- Embeds the `model_dump` override of `StartupListingReport`: the
`source_url` entry is coerced via `str()` whenever it is not already a
string.  Every Python value has `__str__`, and the base dump stores the URL
wrapper here, whose `str()` form is the wrapped text. -/
def sl_model_dump (r : Listing.StartupListingReport) : List (String × DumpVal) :=
  (sl_base_model_dump r).map fun kv =>
    if kv.1 = "source_url" then
      match kv.2 with
      | DumpVal.vStr s => (kv.1, DumpVal.vStr s)
      | DumpVal.vUrl u => (kv.1, DumpVal.vStr u.toStr)
      | v => (kv.1, v)
    else kv

def use_startup_dump (s : Universal.Startup) : DumpVal :=
  DumpVal.vDict
    [("name", DumpVal.vStr s.name),
     ("startup_url", optStr s.startup_url),
     ("description", optStr s.description),
     ("website", optStr s.website),
     ("sector", optStr s.sector),
     ("location", optStr s.location),
     ("founded_year", optInt s.founded_year),
     ("employees", optStr s.employees),
     ("funding_stage", optStr s.funding_stage),
     ("tags", DumpVal.vList (s.tags.map DumpVal.vStr)),
     ("logo_url", optStr s.logo_url),
     ("additional_info", DumpVal.vDict (pyToDumpPairs s.additional_info))]

def use_base_model_dump (r : Universal.StartupExtractionReport) : List (String × DumpVal) :=
  [("source_url", DumpVal.vUrl r.source_url),
   ("startups", DumpVal.vList (r.startups.map use_startup_dump)),
   ("pages_visited", DumpVal.vList (r.pages_visited.map DumpVal.vStr)),
   ("extraction_notes", optStr r.extraction_notes)]

/-- Embeds the `model_dump` override of `StartupExtractionReport` (same
coercion as the listing report). -/
def use_model_dump (r : Universal.StartupExtractionReport) : List (String × DumpVal) :=
  (use_base_model_dump r).map fun kv =>
    if kv.1 = "source_url" then
      match kv.2 with
      | DumpVal.vStr s => (kv.1, DumpVal.vStr s)
      | DumpVal.vUrl u => (kv.1, DumpVal.vStr u.toStr)
      | v => (kv.1, v)
    else kv

end Dump

namespace Scroll

/-! Embedding of `appsumo_hot_extractor._scroll_to_bottom`.  The browser is
abstracted as `measure : Nat → Int`, giving the scroll position observed at
the start of each iteration; the fixed `asyncio.sleep` delays are timing-only
effects with no model content.  The loop starts with `last_position = -1` and
zero stalled retries, runs at most `max_scrolls` iterations (the source
default is 20), and breaks once the position has been unchanged on three
consecutive iterations; every executed scroll moves down by one viewport
height. -/

def scroll_events_go (measure : Nat → Int) (viewport_height : Int) :
    Nat → Nat → Int → Nat → List Int
  | _, 0, _, _ => []
  | i, fuel + 1, last, retries =>
    if measure i = last then
      if retries + 1 ≥ 3 then []
      else viewport_height :: scroll_events_go measure viewport_height (i + 1) fuel (measure i) (retries + 1)
    else viewport_height :: scroll_events_go measure viewport_height (i + 1) fuel (measure i) 0

def scroll_iterations_go (measure : Nat → Int) :
    Nat → Nat → Int → Nat → Nat
  | _, 0, _, _ => 0
  | i, fuel + 1, last, retries =>
    if measure i = last then
      if retries + 1 ≥ 3 then 1
      else 1 + scroll_iterations_go measure (i + 1) fuel (measure i) (retries + 1)
    else 1 + scroll_iterations_go measure (i + 1) fuel (measure i) 0

/-- The scroll commands dispatched by one `_scroll_to_bottom` run. -/
def scroll_to_bottom_events (measure : Nat → Int) (viewport_height : Int)
    (max_scrolls : Nat) : List Int :=
  scroll_events_go measure viewport_height 0 max_scrolls (-1) 0

/-- The number of loop iterations (position measurements) performed by one
`_scroll_to_bottom` run. -/
def scroll_to_bottom_iterations (measure : Nat → Int) (max_scrolls : Nat) : Nat :=
  scroll_iterations_go measure 0 max_scrolls (-1) 0

end Scroll

/-- Modelled from the spec: first-seen-wins deduplication.  The first record
of every key class is kept in encounter order and every later record whose
key already occurred is dropped.  This is the comparison target for the
dedup behaviour of the embedded assembler loops. -/
def dedupByKey {α : Type} (key : α → String) : List α → List α
  | [] => []
  | x :: rest => x :: dedupByKey key (rest.filter fun y => key y != key x)
termination_by l => l.length
decreasing_by
  simp only [List.length_cons]
  exact Nat.lt_succ_of_le (List.length_filter_le _ _)

namespace AppSumo

/-- The records parsed out of a fragment payload: string elements of the
list, run through the card parser. -/
def parsed_products (parse : String → Option AppSumoProduct) (l : List PyVal) :
    List AppSumoProduct :=
  (l.filterMap getStr).filterMap parse

end AppSumo

namespace Listing

/-- The startups contributed by all extraction outputs in chronological
order, before deduplication: empty contents are skipped and each remaining
content contributes the records its markdown parse yields. -/
def gathered_startups (parseMd : String → Option StartupListingReport)
    (contents : List String) : List StartupProfile :=
  (contents.filter (fun c => c != "")).flatMap (fun c =>
    match parseMd c with
    | some rep => rep.startups
    | none => [])

end Listing

/-! Helper lemmas shared by the claim theorems. -/

theorem pyStrip_default_listing (url reason : String) :
    (Listing.fallback_report url reason).startups
      = [{ name := "Informations indisponibles"
           listing_url := some url
           linkedin_url := none
           description := none
           short_notes := [if pyStrip reason = "" then "Impossible d\x27obtenir un listing fiable depuis la page." else pyStrip reason,
                           "Rapport g√©n√©r√© automatiquement (agent interrompu avant la fin)."] }] := by
  simp [Listing.fallback_report]

theorem universal_fallback_notes (url reason : String) :
    (Universal.fallback_report url reason).extraction_notes
      = some (if pyStrip reason = "" then "Could not extract startups from the page." else pyStrip reason) := by
  simp [Universal.fallback_report]

namespace Dump

theorem hasUrlList_map_vStr (l : List String) :
    hasUrlList (l.map DumpVal.vStr) = false := by
  induction l with
  | nil => rfl
  | cons s rest ih => simp [hasUrlList, hasUrl, ih]

theorem hasUrl_optStr (o : Option String) : hasUrl (optStr o) = false := by
  cases o <;> rfl

theorem hasUrl_sl_profile_dump (s : Listing.StartupProfile) :
    hasUrl (sl_profile_dump s) = false := by
  simp [sl_profile_dump, hasUrl, hasUrlPairs, hasUrl_optStr, hasUrlList_map_vStr]

theorem hasUrlList_map_profile (l : List Listing.StartupProfile) :
    hasUrlList (l.map sl_profile_dump) = false := by
  induction l with
  | nil => rfl
  | cons s rest ih => simp [hasUrlList, hasUrl_sl_profile_dump, ih]

end Dump

end Histia

open Histia

/-- C1 counterexample: the universal startup extractor's sentinel-failure
path returns a Report whose records list is EMPTY (the failure reason goes
into `extraction_notes`), so a Report with an empty records list is in fact
returned on total failure, and no sentinel record named `unavailable` or
`Informations indisponibles` is present in it. -/
theorem C1_counterexample :
    (Universal.fallback_report "https://example.com/startups"
        "Extraction failed: no startups found.").startups = [] := rfl

/-- C1 amended: on total extraction failure, the startup listing agent's
fallback Report carries exactly one sentinel record named
`Informations indisponibles` whose notes hold a non-empty failure reason,
while the universal startup extractor's fallback Report has an EMPTY records
list and carries its non-empty failure reason in `extraction_notes`
instead. -/
theorem C1_amended (url reason : String) :
    ((Listing.fallback_report url reason).startups.map fun s => s.name)
        = ["Informations indisponibles"]
    ∧ ((Listing.fallback_report url reason).startups.map fun s => s.short_notes.length) = [2]
    ∧ ((Listing.fallback_report url reason).startups.map fun s => s.short_notes.headI) ≠ [""]
    ∧ (Universal.fallback_report url reason).startups = []
    ∧ (Universal.fallback_report url reason).extraction_notes ≠ none
    ∧ (Universal.fallback_report url reason).extraction_notes ≠ some "" := by
  refine ⟨?_, ?_, ?_, rfl, ?_, ?_⟩
  · rw [Histia.pyStrip_default_listing]; rfl
  · rw [Histia.pyStrip_default_listing]; rfl
  · rw [Histia.pyStrip_default_listing]
    simp only [List.map_cons, List.map_nil, List.headI]
    intro hcontra
    have h1 : (if pyStrip reason = "" then "Impossible d\x27obtenir un listing fiable depuis la page." else pyStrip reason) = "" := by
      simpa using hcontra
    by_cases h : pyStrip reason = ""
    · rw [if_pos h] at h1
      exact absurd h1 (by decide)
    · rw [if_neg h] at h1
      exact h h1
  · rw [Histia.universal_fallback_notes]; simp
  · rw [Histia.universal_fallback_notes]
    intro hcontra
    have h1 : (if pyStrip reason = "" then "Could not extract startups from the page." else pyStrip reason) = "" := by
      simpa using hcontra
    by_cases h : pyStrip reason = ""
    · rw [if_pos h] at h1
      exact absurd h1 (by decide)
    · rw [if_neg h] at h1
      exact h h1

/-- C3 counterexample: the startup listing agent's cap step only truncates
when the cap is below 1000; with the allowed cap 1000 and 1001 surviving
records the returned list has 1001 entries, exceeding the cap. -/
theorem C3_counterexample :
    (Listing.cap_startups 1000
        (List.replicate 1001 ({ name := "X" } : Listing.StartupProfile))).length = 1001
    ∧ 1000 < 1001 := by
  constructor
  · simp [Listing.cap_startups]
  · decide

/-- C3 amended: the AppSumo extractor's cap always truncates the report to
the first `cap` records in encounter order (so its length is at most `cap`),
while the startup listing agent truncates to the first `cap` records only
when `cap < 1000` — with the boundary cap 1000 the combined list is returned
untruncated. -/
theorem C3_amended :
    (∀ (cap : Nat) (rep : AppSumo.AppSumoHotReport),
      (AppSumo.cap_products cap rep).products = rep.products.take cap
      ∧ (AppSumo.cap_products cap rep).products.length ≤ cap)
    ∧ (∀ (cap : Nat) (l : List Listing.StartupProfile),
        cap < 1000 → Listing.cap_startups cap l = l.take cap) := by
  constructor
  · intro cap rep
    have hmain : (AppSumo.cap_products cap rep).products = rep.products.take cap := by
      unfold AppSumo.cap_products
      split
      · rfl
      · rename_i h
        rw [List.take_of_length_le (Nat.le_of_not_lt h)]
    refine ⟨hmain, ?_⟩
    rw [hmain]
    exact le_trans (List.length_take_le cap rep.products) (le_refl cap)
  · intro cap l h
    unfold Listing.cap_startups
    rw [if_pos h]

/-- C3 witness: the amended cap behaviour applied at cap 2 on a
three-element list. -/
theorem C3_amended_witness :
    Listing.cap_startups 2 (List.replicate 3 ({ name := "X" } : Listing.StartupProfile))
      = List.replicate 2 ({ name := "X" } : Listing.StartupProfile) := by
  rw [C3_amended.2 2 (List.replicate 3 { name := "X" }) (by decide)]
  rfl

/-- C7 counterexample: the futuretools agent's sentinel-failure Report (its
single record is named `Informations indisponibles`) is NOT detected by
`_is_fallback_report` — its records live under a `tools` key the detector
never reads — so the endpoint returns it with HTTP 200, not 206. -/
theorem C7_counterexample :
    Api.run_agent_endpoint
        (some (Api.ft_report_dict
          (FutureTools.fallback_report "https://www.futuretools.io/newly-added"
            "L\x27agent n\x27a pas pu extraire les donn\x65es.")))
      = Api.EndpointResult.status200
          (Api.ft_report_dict
            (FutureTools.fallback_report "https://www.futuretools.io/newly-added"
              "L\x27agent n\x27a pas pu extraire les donn\x65es.")) := rfl

/-- C7 amended: a startup-listing sentinel-failure Report is detected and
answered with HTTP 206 and a body carrying the `report`, `warning`,
`success = false` and `message` keys; any report the detector does not
recognise (futuretools and empty-records universal fallbacks included) is
answered with HTTP 200 as the report itself, and a missing result gives
HTTP 500. -/
theorem C7_amended :
    (∀ url reason,
      Api.run_agent_endpoint (some (Api.sl_report_dict (Listing.fallback_report url reason)))
        = Api.EndpointResult.status206
            { report := Api.sl_report_dict (Listing.fallback_report url reason)
              warning := "L\x27agent a été interrompu avant de finaliser l\x27extraction. Le rapport contient des données partielles ou un rapport de fallback."
              success := false
              message := "Vérifiez les logs du serveur pour plus de détails sur l\x27échec de l\x27extraction." })
    ∧ (∀ d, Api.is_fallback_report d = false →
        Api.run_agent_endpoint (some d) = Api.EndpointResult.status200 d)
    ∧ Api.run_agent_endpoint none
        = Api.EndpointResult.status500 "L\x27agent n\x27a pas pu générer de rapport. Vérifiez les logs pour plus de détails." := by
  refine ⟨?_, ?_, rfl⟩
  · intro url reason
    have hnote : (strHas (pyLower "Rapport g√©n√©r√© automatiquement (agent interrompu avant la fin).") "interrompu"
        || strHas (pyLower "Rapport g√©n√©r√© automatiquement (agent interrompu avant la fin).") "fallback") = true := by
      decide
    have hfb : Api.is_fallback_report (Api.sl_report_dict (Listing.fallback_report url reason)) = true := by
      simp only [Api.sl_report_dict]
      rw [Histia.pyStrip_default_listing]
      simp [Api.is_fallback_report, List.any_cons, List.any_nil, hnote]
    simp [Api.run_agent_endpoint, hfb]
  · intro d h
    simp [Api.run_agent_endpoint, h]

/-- C7 witness: the amended endpoint behaviour applied to a report the
detector does not flag. -/
theorem C7_amended_witness :
    Api.run_agent_endpoint (some { startups := none, products := none, company := none })
      = Api.EndpointResult.status200 { startups := none, products := none, company := none } :=
  C7_amended.2.1 { startups := none, products := none, company := none } rfl

/-- C8 confirmed: serialising a listing or universal Report yields a
structure whose `source_url` entry is a plain string (the `str()` form of the
URL wrapper), and the listing dump contains no URL-typed value anywhere, so
the internal URL type never reaches the wire format. -/
theorem C8_url_serialization (r : Listing.StartupListingReport)
    (r2 : Universal.StartupExtractionReport) :
    (Dump.sl_model_dump r).lookup "source_url" = some (Dump.DumpVal.vStr r.source_url.toStr)
    ∧ (Dump.use_model_dump r2).lookup "source_url" = some (Dump.DumpVal.vStr r2.source_url.toStr)
    ∧ Dump.hasUrlPairs (Dump.sl_model_dump r) = false := by
  refine ⟨?_, ?_, ?_⟩
  · simp [Dump.sl_model_dump, Dump.sl_base_model_dump, List.lookup]
  · simp [Dump.use_model_dump, Dump.use_base_model_dump, List.lookup]
  · simp [Dump.sl_model_dump, Dump.sl_base_model_dump, Dump.hasUrlPairs, Dump.hasUrl,
      Dump.hasUrlList_map_profile]

theorem parse_sections_loop_skips_nonstrings
    (parse : String → Option AppSumo.AppSumoProduct) :
    ∀ (l : List PyVal) (seen : List String),
      AppSumo.parse_sections_loop parse seen l
        = AppSumo.parse_sections_loop parse seen
            ((l.filterMap AppSumo.getStr).map PyVal.pStr) := by
  intro l
  induction l with
  | nil => intro seen; rfl
  | cons v rest ih =>
    intro seen
    cases v with
    | pStr s =>
      cases hp : parse s with
      | none =>
        simp only [AppSumo.parse_sections_loop, AppSumo.getStr, List.filterMap_cons, List.map_cons, hp]
        exact ih seen
      | some p =>
        simp only [AppSumo.parse_sections_loop, AppSumo.getStr, List.filterMap_cons, List.map_cons, hp]
        cases hc : List.contains seen (pyLower p.name) <;> simp [hc, ih]
    | pNum n => simp only [AppSumo.parse_sections_loop, AppSumo.getStr, List.filterMap_cons]; exact ih seen
    | pBool b => simp only [AppSumo.parse_sections_loop, AppSumo.getStr, List.filterMap_cons]; exact ih seen
    | pNone => simp only [AppSumo.parse_sections_loop, AppSumo.getStr, List.filterMap_cons]; exact ih seen
    | pList l2 => simp only [AppSumo.parse_sections_loop, AppSumo.getStr, List.filterMap_cons]; exact ih seen
    | pDict d => simp only [AppSumo.parse_sections_loop, AppSumo.getStr, List.filterMap_cons]; exact ih seen

/-- C10 confirmed: the fragment-list parser is total over its loosely typed
input.  A string whose JSON decode fails is processed as the one-fragment
list holding that string; a string that decodes to a non-list, or any direct
non-string non-list value, yields `none` rather than an error; and non-string
elements of the list are skipped without affecting the rest. -/
theorem C10_total_sections :
    (∀ (jsonLoads : String → Option PyVal) (parse : String → Option AppSumo.AppSumoProduct)
        (s url : String),
        jsonLoads s = none →
        AppSumo.parse_html_sections jsonLoads parse (PyVal.pStr s) url
          = AppSumo.parse_html_sections jsonLoads parse (PyVal.pList [PyVal.pStr s]) url)
    ∧ (∀ (jsonLoads : String → Option PyVal) (parse : String → Option AppSumo.AppSumoProduct)
        (s url : String) (v : PyVal),
        jsonLoads s = some v → (∀ l, v ≠ PyVal.pList l) →
        AppSumo.parse_html_sections jsonLoads parse (PyVal.pStr s) url = none)
    ∧ (∀ (jsonLoads : String → Option PyVal) (parse : String → Option AppSumo.AppSumoProduct)
        (url : String) (v : PyVal),
        (∀ s, v ≠ PyVal.pStr s) → (∀ l, v ≠ PyVal.pList l) →
        AppSumo.parse_html_sections jsonLoads parse v url = none)
    ∧ (∀ (parse : String → Option AppSumo.AppSumoProduct) (seen : List String) (l : List PyVal),
        AppSumo.parse_sections_loop parse seen l
          = AppSumo.parse_sections_loop parse seen ((l.filterMap AppSumo.getStr).map PyVal.pStr)) := by
  refine ⟨?_, ?_, ?_, ?_⟩
  · intro jsonLoads parse s url h
    simp only [AppSumo.parse_html_sections, h]
  · intro jsonLoads parse s url v h hv
    simp only [AppSumo.parse_html_sections, h]
  · intro jsonLoads parse url v hs hl
    cases v with
    | pList l => exact absurd rfl (hl l)
    | pStr s2 => exact absurd rfl (hs s2)
    | pNum n => rfl
    | pBool b => rfl
    | pNone => rfl
    | pDict d => rfl
  · intro parse seen l
    exact parse_sections_loop_skips_nonstrings parse l seen

/-- C10 witness: the totality behaviours at concrete inputs — a non-JSON
string is treated as a single-fragment list, a string decoding to a number
yields `none`, and a direct dict input yields `none`. -/
theorem C10_total_sections_witness :
    AppSumo.parse_html_sections (fun _ => none) (fun _ => none) (PyVal.pStr "abc") "https://appsumo.com/"
      = AppSumo.parse_html_sections (fun _ => none) (fun _ => none) (PyVal.pList [PyVal.pStr "abc"]) "https://appsumo.com/"
    ∧ AppSumo.parse_html_sections (fun _ => some (PyVal.pNum 3)) (fun _ => none) (PyVal.pStr "abc") "https://appsumo.com/" = none
    ∧ AppSumo.parse_html_sections (fun _ => none) (fun _ => none) (PyVal.pDict []) "https://appsumo.com/" = none := by
  refine ⟨?_, ?_, ?_⟩
  · exact C10_total_sections.1 (fun _ => none) (fun _ => none) "abc" "https://appsumo.com/" rfl
  · exact C10_total_sections.2.1 (fun _ => some (PyVal.pNum 3)) (fun _ => none) "abc" "https://appsumo.com/"
      (PyVal.pNum 3) rfl (fun l h => PyVal.noConfusion h)
  · exact C10_total_sections.2.2.1 (fun _ => none) (fun _ => none) "https://appsumo.com/"
      (PyVal.pDict []) (fun s h => PyVal.noConfusion h) (fun l h => PyVal.noConfusion h)

theorem scroll_events_length_le (measure : Nat → Int) (vh : Int) :
    ∀ (fuel i : Nat) (last : Int) (retries : Nat),
      (Scroll.scroll_events_go measure vh i fuel last retries).length ≤ fuel := by
  intro fuel
  induction fuel with
  | zero => intro i last retries; simp [Scroll.scroll_events_go]
  | succ f ih =>
    intro i last retries
    simp only [Scroll.scroll_events_go]
    split
    · split
      · simp
      · simpa using Nat.succ_le_succ (ih (i + 1) (measure i) (retries + 1))
    · simpa using Nat.succ_le_succ (ih (i + 1) (measure i) 0)

theorem scroll_events_all_vh (measure : Nat → Int) (vh : Int) :
    ∀ (fuel i : Nat) (last : Int) (retries : Nat) (e : Int),
      e ∈ Scroll.scroll_events_go measure vh i fuel last retries → e = vh := by
  intro fuel
  induction fuel with
  | zero => intro i last retries e he; simp [Scroll.scroll_events_go] at he
  | succ f ih =>
    intro i last retries e he
    simp only [Scroll.scroll_events_go] at he
    split at he
    · split at he
      · simp at he
      · rcases List.mem_cons.mp he with h | h
        · exact h
        · exact ih (i + 1) (measure i) (retries + 1) e h
    · rcases List.mem_cons.mp he with h | h
      · exact h
      · exact ih (i + 1) (measure i) 0 e h

theorem scroll_iterations_le (measure : Nat → Int) :
    ∀ (fuel i : Nat) (last : Int) (retries : Nat),
      Scroll.scroll_iterations_go measure i fuel last retries ≤ fuel := by
  intro fuel
  induction fuel with
  | zero => intro i last retries; simp [Scroll.scroll_iterations_go]
  | succ f ih =>
    intro i last retries
    simp only [Scroll.scroll_iterations_go]
    split
    · split
      · omega
      · have := ih (i + 1) (measure i) (retries + 1); omega
    · have := ih (i + 1) (measure i) 0; omega

theorem scroll_iterations_const_tail (measure : Nat → Int) (c : Int) :
    ∀ (fuel i : Nat) (retries : Nat),
      retries ≤ 2 → (∀ j, i ≤ j → measure j = c) →
      Scroll.scroll_iterations_go measure i fuel c retries ≤ 3 - retries := by
  intro fuel
  induction fuel with
  | zero => intro i retries _ _; simp [Scroll.scroll_iterations_go]
  | succ f ih =>
    intro i retries hr hc
    have hm : measure i = c := hc i (Nat.le_refl i)
    simp only [Scroll.scroll_iterations_go, hm, if_pos]
    split
    · omega
    · rename_i hlt
      have hrec := ih (i + 1) (retries + 1) (by omega) (fun j hj => hc j (by omega))
      omega

theorem scroll_iterations_const_all (measure : Nat → Int) (c : Int) :
    ∀ (fuel i : Nat) (last : Int) (retries : Nat),
      retries ≤ 2 → (∀ j, i ≤ j → measure j = c) →
      Scroll.scroll_iterations_go measure i fuel last retries ≤ 4 := by
  intro fuel i last retries hr hc
  cases fuel with
  | zero => simp [Scroll.scroll_iterations_go]
  | succ f =>
    have hm : measure i = c := hc i (Nat.le_refl i)
    by_cases hl : c = last
    · subst hl
      have := scroll_iterations_const_tail measure c (f + 1) i retries hr hc
      omega
    · simp only [Scroll.scroll_iterations_go, hm, if_neg hl]
      have := scroll_iterations_const_tail measure c f (i + 1) 0 (by omega) (fun j hj => hc j (by omega))
      omega

theorem scroll_iterations_const_from (measure : Nat → Int) (c : Int) (k : Nat) :
    ∀ (fuel i : Nat) (last : Int) (retries : Nat),
      retries ≤ 2 → (∀ j, k ≤ j → measure j = c) →
      Scroll.scroll_iterations_go measure i fuel last retries ≤ (k - i) + 4 := by
  intro fuel
  induction fuel with
  | zero => intro i last retries _ _; simp [Scroll.scroll_iterations_go]
  | succ f ih =>
    intro i last retries hr hc
    by_cases hik : k ≤ i
    · have := scroll_iterations_const_all measure c (f + 1) i last retries hr
        (fun j hj => hc j (by omega))
      omega
    · simp only [Scroll.scroll_iterations_go]
      split
      · split
        · omega
        · have := ih (i + 1) (measure i) (retries + 1) ?_ hc
          · omega
          · rename_i hlt
            omega
      · have := ih (i + 1) (measure i) 0 (by omega) hc
        omega

/-- C9 confirmed: the scroll driver always terminates within its fixed
iteration budget (20 by default at every call site), every scroll it performs
moves by exactly one viewport height, and it stops early once the measured
position has stopped changing: three consecutive unchanged measurements (the
retry counter reaching 3) end the loop, so if the position is constant from
measurement `k` onwards at most `k + 4` iterations run; the fixed inter-scroll
delays are pure timing and carry no model content. -/
theorem C9_scroll_termination :
    (∀ (measure : Nat → Int) (vh : Int) (max_scrolls : Nat),
        (Scroll.scroll_to_bottom_events measure vh max_scrolls).length ≤ max_scrolls
        ∧ Scroll.scroll_to_bottom_iterations measure max_scrolls ≤ max_scrolls
        ∧ ∀ e ∈ Scroll.scroll_to_bottom_events measure vh max_scrolls, e = vh)
    ∧ (∀ (measure : Nat → Int) (c : Int) (k max_scrolls : Nat),
        (∀ j, k ≤ j → measure j = c) →
        Scroll.scroll_to_bottom_iterations measure max_scrolls ≤ k + 4) := by
  constructor
  · intro measure vh max_scrolls
    refine ⟨scroll_events_length_le measure vh max_scrolls 0 (-1) 0,
            scroll_iterations_le measure max_scrolls 0 (-1) 0,
            ?_⟩
    intro e he
    exact scroll_events_all_vh measure vh max_scrolls 0 (-1) 0 e he
  · intro measure c k max_scrolls hc
    have h2 := scroll_iterations_const_from measure c k max_scrolls 0 (-1) 0 (by omega) hc
    simp only [Scroll.scroll_to_bottom_iterations]
    omega

/-- C9 witness: with a constantly zero scroll position the driver runs
exactly four measurement iterations of its twenty-iteration default budget
(three consecutive no-change retries after the first reset), within the
`k + 4` bound of the theorem at `k = 0`. -/
theorem C9_scroll_termination_witness :
    Scroll.scroll_to_bottom_iterations (fun _ => 0) 20 ≤ 0 + 4
    ∧ Scroll.scroll_to_bottom_iterations (fun _ => 0) 20 = 4
    ∧ (Scroll.scroll_to_bottom_events (fun _ => 0) 900 20).length ≤ 20
    ∧ Scroll.scroll_to_bottom_events (fun _ => 0) 900 20 = [900, 900, 900] := by
  refine ⟨C9_scroll_termination.2 (fun _ => 0) 0 0 20 (fun j _ => rfl), by decide,
          (C9_scroll_termination.1 (fun _ => 0) 900 20).1, by decide⟩

theorem clean_text_ne_empty (v : Option String) (t : String)
    (h : AppSumo.clean_text v = some t) : t ≠ "" := by
  cases v with
  | none => simp [AppSumo.clean_text] at h
  | some s =>
    simp only [AppSumo.clean_text] at h
    split at h
    · cases h
    · split at h
      · cases h
      · rename_i ht
        cases h
        exact ht

theorem name_selectors_all_none (soup : AppSumo.Soup) :
    ∀ (sels : List String),
      (∀ sel ∈ sels,
        (match soup.select_one sel with
         | some el => AppSumo.clean_text (some el.text) = none
         | none => True)) →
      AppSumo.name_from_selectors soup sels = none := by
  intro sels
  induction sels with
  | nil => intro _; rfl
  | cons sel rest ih =>
    intro hyp
    have hhead := hyp sel (List.mem_cons_self sel rest)
    have htail := ih (fun s hs => hyp s (List.mem_cons_of_mem sel hs))
    unfold AppSumo.name_from_selectors
    cases hs : soup.select_one sel with
    | none => exact htail
    | some el =>
      rw [hs] at hhead
      simp only at hhead
      dsimp only
      rw [hhead]
      exact htail

theorem name_from_selectors_ne_empty (soup : AppSumo.Soup) :
    ∀ (sels : List String) (n : String),
      AppSumo.name_from_selectors soup sels = some n → n ≠ "" := by
  intro sels
  induction sels with
  | nil => intro n h; cases h
  | cons sel rest ih =>
    intro n h
    unfold AppSumo.name_from_selectors at h
    cases hs : soup.select_one sel with
    | none => rw [hs] at h; exact ih n h
    | some el =>
      rw [hs] at h
      dsimp only at h
      cases hc : AppSumo.clean_text (some el.text) with
      | none => rw [hc] at h; exact ih n h
      | some t =>
        rw [hc] at h
        dsimp only at h
        cases h
        exact clean_text_ne_empty (some el.text) n hc

/-- C5 confirmed: when no name rule yields non-empty text after whitespace
normalisation (every name selector either matches nothing or its element's
text cleans to nothing — in particular for the empty fragment), the card
parser returns `none`; and whenever it does return a record, that record's
name is non-empty. -/
theorem C5_name_required :
    (∀ (soup : AppSumo.Soup) (join : String → String → Option String) (html url : String),
        (∀ sel ∈ AppSumo.name_selectors,
           (match soup.select_one sel with
            | some el => AppSumo.clean_text (some el.text) = none
            | none => True)) →
        AppSumo.parse_product_card soup join html url = none)
    ∧ (∀ (soup : AppSumo.Soup) (join : String → String → Option String) (html url : String)
        (p : AppSumo.AppSumoProduct),
        AppSumo.parse_product_card soup join html url = some p → p.name ≠ "") := by
  constructor
  · intro soup join html url hyp
    unfold AppSumo.parse_product_card
    by_cases hh : html = ""
    · rw [if_pos hh]
    · rw [if_neg hh, name_selectors_all_none soup AppSumo.name_selectors hyp]
  · intro soup join html url p hp
    unfold AppSumo.parse_product_card at hp
    by_cases hh : html = ""
    · rw [if_pos hh] at hp; cases hp
    · rw [if_neg hh] at hp
      cases hn : AppSumo.name_from_selectors soup AppSumo.name_selectors with
      | none => rw [hn] at hp; cases hp
      | some nm =>
        rw [hn] at hp
        simp only at hp
        have hne := name_from_selectors_ne_empty soup AppSumo.name_selectors nm hn
        cases hp
        exact hne

/-- C5 witness: the empty fragment, through a soup in which no selector
matches anything, parses to `none`. -/
theorem C5_name_required_witness :
    AppSumo.parse_product_card
      { select_one := fun _ => none, img_star_alt := none, stars_string := none, div_spans := [] }
      (fun _ _ => none) "<div></div>" "https://appsumo.com/collections/whats-hot/" = none := by
  apply C5_name_required.1
  intro sel _
  simp

theorem dedupByKey_nil {α : Type} (key : α → String) : Histia.dedupByKey key [] = [] := by
  rw [Histia.dedupByKey]

theorem dedupByKey_cons {α : Type} (key : α → String) (x : α) (rest : List α) :
    Histia.dedupByKey key (x :: rest)
      = x :: Histia.dedupByKey key (rest.filter fun y => key y != key x) := by
  rw [Histia.dedupByKey]

theorem filter_key_cons {α : Type} (key : α → String) (k : String) (seen : List String)
    (m : List α) :
    m.filter (fun p => !(k :: seen).contains (key p))
      = (m.filter (fun p => !seen.contains (key p))).filter (fun p => key p != k) := by
  rw [List.filter_filter]
  apply List.filter_congr
  intro p _
  have hcc : (k :: seen).contains (key p) = (key p == k || seen.contains (key p)) := rfl
  show (!(k :: seen).contains (key p)) = (key p != k && !seen.contains (key p))
  rw [hcc]
  cases hb : (key p == k) <;> cases hc : seen.contains (key p) <;> simp [hb, hc, bne]

theorem filter_name_cons (k : String) (seen : List String)
    (m : List Listing.StartupProfile) :
    m.filter (fun s => s.name != "" && !(k :: seen).contains s.name)
      = (m.filter (fun s => s.name != "" && !seen.contains s.name)).filter (fun s => s.name != k) := by
  rw [List.filter_filter]
  apply List.filter_congr
  intro s _
  have hcc : (k :: seen).contains s.name = (s.name == k || seen.contains s.name) := rfl
  show (s.name != "" && !(k :: seen).contains s.name)
      = (s.name != k && (s.name != "" && !seen.contains s.name))
  rw [hcc]
  cases ha : (s.name == "") <;> cases hb : (s.name == k) <;> cases hc : seen.contains s.name <;>
    simp [ha, hb, hc, bne]

theorem parse_sections_loop_spec (parse : String → Option AppSumo.AppSumoProduct) :
    ∀ (l : List PyVal) (seen : List String),
      AppSumo.parse_sections_loop parse seen l
        = Histia.dedupByKey (fun p => pyLower p.name)
            ((AppSumo.parsed_products parse l).filter (fun p => !seen.contains (pyLower p.name))) := by
  intro l
  induction l with
  | nil =>
    intro seen
    simp [AppSumo.parse_sections_loop, AppSumo.parsed_products, dedupByKey_nil]
  | cons v rest ih =>
    intro seen
    cases v with
    | pStr s =>
      cases hp : parse s with
      | none =>
        simp only [AppSumo.parse_sections_loop, AppSumo.parsed_products, List.filterMap_cons,
          AppSumo.getStr, hp]
        exact ih seen
      | some p =>
        simp only [AppSumo.parse_sections_loop, AppSumo.parsed_products, List.filterMap_cons,
          AppSumo.getStr, hp]
        cases hc : seen.contains (pyLower p.name) with
        | true =>
          simp only [hc, if_true, List.filter_cons, Bool.not_true, if_neg]
          · exact ih seen
        | false =>
          simp only [hc, Bool.false_eq_true, if_false, List.filter_cons, Bool.not_false, if_true]
          rw [dedupByKey_cons, ih (pyLower p.name :: seen), filter_key_cons]
          rfl
    | pNum n =>
      simp only [AppSumo.parse_sections_loop, AppSumo.parsed_products, List.filterMap_cons,
        AppSumo.getStr]
      exact ih seen
    | pBool b =>
      simp only [AppSumo.parse_sections_loop, AppSumo.parsed_products, List.filterMap_cons,
        AppSumo.getStr]
      exact ih seen
    | pNone =>
      simp only [AppSumo.parse_sections_loop, AppSumo.parsed_products, List.filterMap_cons,
        AppSumo.getStr]
      exact ih seen
    | pList l2 =>
      simp only [AppSumo.parse_sections_loop, AppSumo.parsed_products, List.filterMap_cons,
        AppSumo.getStr]
      exact ih seen
    | pDict d =>
      simp only [AppSumo.parse_sections_loop, AppSumo.parsed_products, List.filterMap_cons,
        AppSumo.getStr]
      exact ih seen

theorem add_prepend (T : List String → List Listing.StartupProfile)
    (G : List Listing.StartupProfile)
    (Hbase : ∀ seen, T seen
      = Histia.dedupByKey (fun s => s.name)
          (G.filter (fun s => s.name != "" && !seen.contains s.name))) :
    ∀ (pending : List Listing.StartupProfile) (seen : List String),
      (Listing.add_startups seen pending).2 ++ T (Listing.add_startups seen pending).1
        = Histia.dedupByKey (fun s => s.name)
            ((pending ++ G).filter (fun s => s.name != "" && !seen.contains s.name)) := by
  intro pending
  induction pending with
  | nil =>
    intro seen
    simpa [Listing.add_startups] using Hbase seen
  | cons s ps ihp =>
    intro seen
    cases hcond : (s.name != "" && !seen.contains s.name) with
    | true =>
      have hstep : Listing.add_startups seen (s :: ps)
          = ((Listing.add_startups (s.name :: seen) ps).1,
             s :: (Listing.add_startups (s.name :: seen) ps).2) := by
        simp only [Listing.add_startups, hcond, if_true]
      rw [hstep]
      conv_rhs => rw [List.cons_append, List.filter_cons]
      rw [if_pos hcond, dedupByKey_cons]
      rw [show ((ps ++ G).filter (fun y => y.name != "" && !seen.contains y.name)).filter
            (fun y => y.name != s.name)
          = (ps ++ G).filter (fun y => y.name != "" && !(s.name :: seen).contains y.name)
        from (filter_name_cons s.name seen (ps ++ G)).symm]
      rw [← ihp (s.name :: seen)]
      rfl
    | false =>
      have hstep : Listing.add_startups seen (s :: ps) = Listing.add_startups seen ps := by
        simp only [Listing.add_startups, hcond, Bool.false_eq_true, if_false]
      rw [hstep]
      conv_rhs => rw [List.cons_append, List.filter_cons]
      rw [if_neg (show ¬((s.name != "" && !seen.contains s.name) = true) from by
        rw [hcond]; simp)]
      exact ihp seen

theorem combine_go_spec (parseMd : String → Option Listing.StartupListingReport) :
    ∀ (contents : List String) (seen : List String),
      Listing.combine_go parseMd seen contents
        = Histia.dedupByKey (fun s => s.name)
            ((Listing.gathered_startups parseMd contents).filter
              (fun s => s.name != "" && !seen.contains s.name)) := by
  intro contents
  induction contents with
  | nil =>
    intro seen
    simp [Listing.combine_go, Listing.gathered_startups, dedupByKey_nil]
  | cons c rest ih =>
    intro seen
    by_cases hc : c = ""
    · simp only [Listing.combine_go, Listing.gathered_startups, hc, List.filter_cons]
      simp only [show ("" != "") = false from rfl, if_false]
      exact ih seen
    · have hcb : (c != "") = true := by simp [bne, hc]
      cases hm : parseMd c with
      | none =>
        simp only [Listing.combine_go, Listing.gathered_startups, if_neg hc, hm, List.filter_cons,
          hcb, if_true, List.flatMap_cons, List.nil_append]
        exact ih seen
      | some rep =>
        by_cases hsl : rep.startups = []
        · simp only [Listing.combine_go, Listing.gathered_startups, if_neg hc, hm, hsl,
            List.filter_cons, hcb, if_true, List.flatMap_cons, List.nil_append]
          simp only [ne_eq, not_true_eq_false, if_false]
          exact ih seen
        · simp only [Listing.combine_go, Listing.gathered_startups, if_neg hc, hm,
            List.filter_cons, hcb, if_true, List.flatMap_cons]
          rw [if_pos hsl]
          exact add_prepend (fun sn => Listing.combine_go parseMd sn rest)
            (Listing.gathered_startups parseMd rest)
            (fun sn => ih sn)
            rep.startups seen

/-- C2 counterexample: the startup listing agent's combine loop deduplicates
by EXACT name, not case-insensitively.  Two records whose names `Foo` and
`FOO` are equal up to letter case both survive — the later one is not
dropped — refuting the claim for this cited Batch Assembler. -/
theorem C2_counterexample :
    (Listing.combine_extracted
        (fun c => Listing.parse_extracted_markdown (fun _ => none) c "https://www.producthunt.com/")
        ["1. **Name**: Foo\n2. **Name**: FOO"]).map (fun s => s.name) = ["Foo", "FOO"]
    ∧ pyLower "Foo" = pyLower "FOO" := by
  constructor
  · decide
  · decide

/-- C2 amended: both assembler loops are first-seen-wins deduplication (the
first record of a key class is kept in encounter order, later records with an
already-seen key are dropped even if more complete), but the dedup key
differs: the AppSumo fragment loop keys on the LOWERCASED name
(case-insensitive), while the startup listing agent's combine loop keys on
the exact name (case-sensitive) of records with non-empty names. -/
theorem C2_amended :
    (∀ (parse : String → Option AppSumo.AppSumoProduct) (l : List PyVal),
       AppSumo.parse_sections_loop parse [] l
         = Histia.dedupByKey (fun p => pyLower p.name) (AppSumo.parsed_products parse l))
    ∧ (∀ (parseMd : String → Option Listing.StartupListingReport) (contents : List String),
        Listing.combine_extracted parseMd contents
          = Histia.dedupByKey (fun s => s.name)
              ((Listing.gathered_startups parseMd contents).filter (fun s => s.name != ""))) := by
  constructor
  · intro parse l
    rw [parse_sections_loop_spec parse l []]
    congr 1
    rw [List.filter_congr (fun p _ => rfl : ∀ p ∈ AppSumo.parsed_products parse l,
      (!([] : List String).contains (pyLower p.name)) = (fun _ => true) p)]
    exact List.filter_true _
  · intro parseMd contents
    rw [show Listing.combine_extracted parseMd contents
        = Listing.combine_go parseMd [] contents from rfl]
    rw [combine_go_spec parseMd contents []]
    congr 1
    apply List.filter_congr
    intro s _
    show (s.name != "" && !([] : List String).contains s.name) = (s.name != "")
    rw [show (([] : List String).contains s.name) = false from rfl]
    cases hb : (s.name != "") <;> simp [hb]

theorem listStarts_head_eq (c : Char) (cs : List Char) (p : Char) (ps : List Char)
    (h : listStarts (c :: cs) (p :: ps) = true) : c = p := by
  have h2 : (decide (c = p) && listStarts cs ps) = true := h
  exact of_decide_eq_true (Bool.and_elim_left h2)

theorem strStarts_slash_props (s : String) (h : strStarts s "/" = true) :
    strStarts s "http://" = false ∧ strStarts s "https://" = false ∧ s ≠ "" := by
  cases hcs : s.data with
  | nil =>
    exfalso
    have : strStarts s "/" = false := by
      unfold strStarts
      rw [hcs]
      rfl
    rw [this] at h
    cases h
  | cons c cs =>
    have hc : c = '/' := by
      apply listStarts_head_eq c cs '/' []
      have : strStarts s "/" = listStarts (c :: cs) ('/' :: []) := by
        unfold strStarts
        rw [hcs]
      rw [← this]
      exact h
    subst hc
    refine ⟨?_, ?_, ?_⟩
    · unfold strStarts
      rw [hcs]
      try rfl
    · unfold strStarts
      rw [hcs]
      try rfl
    · intro h0
      rw [h0] at hcs
      cases hcs

theorem strStarts_http_ne_empty (s : String)
    (h : (strStarts s "http://" || strStarts s "https://") = true) : s ≠ "" := by
  intro h0
  rw [h0] at h
  exact absurd h (by decide)

/-- C4 counterexample: the post-construction sanitize pass does NOT leave an
absolute http(s) URL unchanged.  A record whose `listing_url` is the absolute
page URL `https://betalist.com/startups/simcardo` (differing from the base
URL) has it rewritten to the bare host prefix `https://betalist.com` — the
path is stripped by the host-extraction regex. -/
theorem C4_counterexample :
    (Listing.sanitize_report (fun _ _ => none)
        { source_url := ⟨"https://betalist.com/"⟩
          startups := [{ name := "Simcardo",
                         listing_url := some "https://betalist.com/startups/simcardo" }] }).startups.map
        (fun s => s.listing_url)
      = [some "https://betalist.com"]
    ∧ some "https://betalist.com" ≠ some "https://betalist.com/startups/simcardo" := by
  constructor
  · decide
  · decide

/-- C4 amended: in `_normalize_url`/`_normalize_listing_url`, an absolute
http(s) value passes through unchanged (after stripping); a root-relative
value is resolved against the scheme and host of the base URL; any other
non-empty value goes through the standard join, whose failure yields null in
the AppSumo variant but returns the value unchanged in the listing variant;
and the sanitize pass does NOT pass absolute URLs through unchanged — an
absolute `listing_url` differing from the base URL is replaced by the
host-prefix match of the `www`/`http(s)` regex (with `https://` prefixed when
the match lacks a scheme), falling back to the original only when the regex
finds nothing. -/
theorem C4_amended :
    (∀ (join : String → String → Option String) (u base : String),
        (strStarts (pyStrip u) "http://" || strStarts (pyStrip u) "https://") = true →
        AppSumo.normalize_url join (some u) base = some (pyStrip u)
        ∧ Listing.normalize_listing_url join (some u) base = some (pyStrip u))
    ∧ (∀ (join : String → String → Option String) (u base : String),
        strStarts (pyStrip u) "/" = true →
        AppSumo.normalize_url join (some u) base
          = some ((urlparse_scheme_netloc base).1 ++ "://" ++ (urlparse_scheme_netloc base).2 ++ pyStrip u)
        ∧ Listing.normalize_listing_url join (some u) base
          = some ((urlparse_scheme_netloc base).1 ++ "://" ++ (urlparse_scheme_netloc base).2 ++ pyStrip u))
    ∧ (∀ (join : String → String → Option String) (u base : String),
        pyStrip u ≠ "" →
        strStarts (pyStrip u) "http://" = false →
        strStarts (pyStrip u) "https://" = false →
        strStarts (pyStrip u) "/" = false →
        AppSumo.normalize_url join (some u) base = join base (pyStrip u)
        ∧ Listing.normalize_listing_url join (some u) base
            = (match join base (pyStrip u) with
               | some r => some r
               | none => some (pyStrip u)))
    ∧ (∀ (join : String → String → Option String) (base lu n : String),
        strStarts lu "https://" = true →
        lu ≠ base →
        (Listing.sanitize_startup join base
            { name := n, listing_url := some lu, linkedin_url := none,
              description := none, short_notes := [] }).listing_url
          = (match sanitize_url_search lu with
             | some extracted => some (if strStarts extracted "http" then extracted else "https://" ++ extracted)
             | none => some lu)) := by
  refine ⟨?_, ?_, ?_, ?_⟩
  · intro join u base hs
    have hne : pyStrip u ≠ "" := strStarts_http_ne_empty (pyStrip u) hs
    have hu : u ≠ "" := by
      intro h0
      apply hne
      rw [h0]
      rfl
    constructor
    · simp only [AppSumo.normalize_url]
      rw [if_neg hu]
      try dsimp only
      rw [if_neg hne, if_pos hs]
    · simp only [Listing.normalize_listing_url]
      rw [if_neg hu]
      try dsimp only
      rw [if_neg hne, if_pos hs]
  · intro join u base hs
    obtain ⟨h1, h2, hne⟩ := strStarts_slash_props (pyStrip u) hs
    have hu : u ≠ "" := by
      intro h0
      apply hne
      rw [h0]
      rfl
    have hor : (strStarts (pyStrip u) "http://" || strStarts (pyStrip u) "https://") = false := by
      rw [h1, h2]
      rfl
    constructor
    · simp only [AppSumo.normalize_url]
      rw [if_neg hu]
      try dsimp only
      rw [if_neg hne, if_neg (by rw [hor]; simp), if_pos hs]
    · simp only [Listing.normalize_listing_url]
      rw [if_neg hu]
      try dsimp only
      rw [if_neg hne, if_neg (by rw [hor]; simp), if_pos hs]
  · intro join u base hne h1 h2 h3
    have hu : u ≠ "" := by
      intro h0
      apply hne
      rw [h0]
      rfl
    have hor : (strStarts (pyStrip u) "http://" || strStarts (pyStrip u) "https://") = false := by
      rw [h1, h2]
      rfl
    constructor
    · simp only [AppSumo.normalize_url]
      rw [if_neg hu]
      try dsimp only
      rw [if_neg hne, if_neg (by rw [hor]; simp), if_neg (by rw [h3]; simp)]
    · simp only [Listing.normalize_listing_url]
      rw [if_neg hu]
      try dsimp only
      rw [if_neg hne, if_neg (by rw [hor]; simp), if_neg (by rw [h3]; simp)]
  · intro join base lu n hs hlb
    have hne : lu ≠ "" := by
      intro h0
      rw [h0] at hs
      exact absurd hs (by decide)
    simp only [Listing.sanitize_startup]
    rw [if_neg hne]
    have hcond : (!strStarts lu "http://" && !strStarts lu "https://") = false := by
      rw [hs]
      simp
    rw [if_neg (by rw [hcond]; simp)]
    rw [if_pos hlb]

/-- C4 witness: the amended normalization behaviours at concrete inputs —
an absolute URL passes through, a root-relative path is resolved against the
base origin, and a bare relative path goes to the (here failing) join, where
the AppSumo variant yields null and the listing variant returns the value. -/
theorem C4_amended_witness :
    AppSumo.normalize_url (fun _ _ => none) (some "https://appsumo.com/products/x") "https://appsumo.com/"
      = some "https://appsumo.com/products/x"
    ∧ Listing.normalize_listing_url (fun _ _ => none) (some "/startups/simcardo") "https://betalist.com/"
      = some "https://betalist.com/startups/simcardo"
    ∧ AppSumo.normalize_url (fun _ _ => none) (some "startups/simcardo") "https://betalist.com/" = none
    ∧ Listing.normalize_listing_url (fun _ _ => none) (some "startups/simcardo") "https://betalist.com/"
      = some "startups/simcardo" := by
  refine ⟨?_, ?_, ?_, ?_⟩
  · have h := (C4_amended.1 (fun _ _ => none) "https://appsumo.com/products/x" "https://appsumo.com/"
      (by decide)).1
    rw [h]
    decide
  · have h := (C4_amended.2.1 (fun _ _ => none) "/startups/simcardo" "https://betalist.com/"
      (by decide)).2
    rw [h]
    decide
  · have h := (C4_amended.2.2.1 (fun _ _ => none) "startups/simcardo" "https://betalist.com/"
      (by decide) (by decide) (by decide) (by decide)).1
    rw [h]
  · have h := (C4_amended.2.2.1 (fun _ _ => none) "startups/simcardo" "https://betalist.com/"
      (by decide) (by decide) (by decide) (by decide)).2
    rw [h]
    decide

theorem push_current_names (acc : List Listing.StartupProfile)
    (cur : Option Listing.CurrentStartup)
    (h : ∀ s ∈ acc, s.name ≠ "") :
    ∀ s ∈ Listing.push_current acc cur, s.name ≠ "" := by
  intro s hs
  unfold Listing.push_current at hs
  cases cur with
  | none => exact h s hs
  | some c =>
    dsimp only at hs
    cases hcn : (c.name != "") with
    | true =>
      rw [if_pos hcn] at hs
      rcases List.mem_append.mp hs with h1 | h1
      · exact h s h1
      · rcases List.mem_singleton.mp h1 with rfl
        simpa [bne] using hcn
    | false =>
      rw [if_neg (by simp [hcn])] at hs
      exact h s hs

theorem field_section_startups (st : Listing.LineState) (ls : String) (indent : Nat) :
    (Listing.field_section st ls indent).startups = st.startups := by
  unfold Listing.field_section
  cases hcur : st.current with
  | none => rfl
  | some c =>
    dsimp only
    cases h1 : (c.name == "") with
    | true => rw [if_pos rfl]
    | false =>
      rw [if_neg (by simp)]
      repeat first | rfl | split

theorem step_line_startups (st : Listing.LineState) (line : String) :
    (Listing.step_line st line).startups = st.startups
    ∨ (Listing.step_line st line).startups
        = Listing.push_current st.startups st.current := by
  unfold Listing.step_line
  dsimp only
  repeat
    first
    | (left; rfl)
    | (right; rfl)
    | (left; rw [field_section_startups])
    | split

theorem step_line_names (st : Listing.LineState) (line : String)
    (h : ∀ s ∈ st.startups, s.name ≠ "") :
    ∀ s ∈ (Listing.step_line st line).startups, s.name ≠ "" := by
  rcases step_line_startups st line with heq | heq
  · rw [heq]; exact h
  · rw [heq]; exact push_current_names st.startups st.current h

theorem foldl_step_names :
    ∀ (lines : List String) (st : Listing.LineState),
      (∀ s ∈ st.startups, s.name ≠ "") →
      ∀ s ∈ (lines.foldl Listing.step_line st).startups, s.name ≠ "" := by
  intro lines
  induction lines with
  | nil => intro st h; exact h
  | cons l rest ih =>
    intro st h
    exact ih (Listing.step_line st l) (step_line_names st l h)

theorem parse_markdown_lines_sound (content url : String)
    (rep : Listing.StartupListingReport)
    (h : Listing.parse_markdown_lines content url = some rep) :
    rep.startups ≠ [] ∧ ∀ s ∈ rep.startups, s.name ≠ "" := by
  unfold Listing.parse_markdown_lines at h
  dsimp only at h
  split at h
  · rename_i hne
    cases h
    constructor
    · exact hne
    · exact push_current_names _ _
        (foldl_step_names _ _ (by intro s hs; cases hs))
  · cases h

theorem parse_extracted_markdown_table_none
    (ts : String → Option String) (content url : String) (h : ts content = none) :
    Listing.parse_extracted_markdown ts content url
      = Listing.parse_markdown_lines content url := by
  unfold Listing.parse_extracted_markdown
  rw [h]

theorem dedupByKey_ne_nil {α : Type} (key : α → String) (l : List α) (h : l ≠ []) :
    Histia.dedupByKey key l ≠ [] := by
  cases l with
  | nil => exact absurd rfl h
  | cons x rest =>
    rw [dedupByKey_cons]
    intro h2
    cases h2

theorem take_ne_nil {α : Type} (l : List α) (n : Nat) (hl : l ≠ []) (hn : 1 ≤ n) :
    l.take n ≠ [] := by
  cases l with
  | nil => exact absurd rfl hl
  | cons x rest =>
    cases n with
    | zero => omega
    | succ m =>
      intro h2
      rw [List.take_succ_cons] at h2
      cases h2

theorem combine_extracted_ne_nil
    (parseMd : String → Option Listing.StartupListingReport)
    (contents : List String) (c0 : String) (rep : Listing.StartupListingReport)
    (s0 : Listing.StartupProfile)
    (hc0 : c0 ∈ contents) (hc0ne : c0 ≠ "") (hm : parseMd c0 = some rep)
    (hs0 : s0 ∈ rep.startups) (hname : s0.name ≠ "") :
    Listing.combine_extracted parseMd contents ≠ [] := by
  rw [show Listing.combine_extracted parseMd contents
      = Listing.combine_go parseMd [] contents from rfl]
  rw [combine_go_spec parseMd contents []]
  apply dedupByKey_ne_nil
  apply List.ne_nil_of_mem (a := s0)
  rw [List.mem_filter]
  constructor
  · unfold Listing.gathered_startups
    rw [List.mem_flatMap]
    refine ⟨c0, ?_, ?_⟩
    · rw [List.mem_filter]
      exact ⟨hc0, by simp [bne, hc0ne]⟩
    · rw [hm]
      exact hs0
  · simp [bne, hname]

/-- C6 confirmed: when the agent produced no structured output, the final
text fails JSON validation, any fenced block it contains also fails
validation, and no extraction output matches a table pattern, but the
line-oriented parser (state five) extracts records from some non-empty
extraction output, then the recovery chain returns the sanitized combination
of the line-parsed records — a non-empty record list — and never reaches the
sentinel-failure state. -/
theorem C6_recovery_line_state
    (env : Listing.ChainEnv) (h : Listing.AgentHistory) (url : String) (max_startups : Nat)
    (hso : h.structured_output = none)
    (hfr : ∀ fr, h.final_result = some fr →
      env.validate_json fr = none
      ∧ ∀ b, env.fenced_json fr = some b → env.validate_json b = none)
    (htab : ∀ c ∈ h.extracted_content, env.table_search c = none)
    (hline : ∃ c ∈ h.extracted_content, c ≠ ""
      ∧ ∃ rep, Listing.parse_markdown_lines c url = some rep)
    (hmax : 1 ≤ max_startups) :
    Listing.combine_extracted
        (fun c => Listing.parse_extracted_markdown env.table_search c url) h.extracted_content ≠ []
    ∧ Listing.run_startup_listing_recover env h url max_startups
        = Listing.sanitize_report env.join
            { source_url := ⟨url⟩
              startups := Listing.cap_startups max_startups
                (Listing.combine_extracted
                  (fun c => Listing.parse_extracted_markdown env.table_search c url)
                  h.extracted_content) }
    ∧ Listing.cap_startups max_startups
        (Listing.combine_extracted
          (fun c => Listing.parse_extracted_markdown env.table_search c url)
          h.extracted_content) ≠ [] := by
  obtain ⟨c0, hc0mem, hc0ne, rep, hrep⟩ := hline
  have hpe : Listing.parse_extracted_markdown env.table_search c0 url = some rep := by
    rw [parse_extracted_markdown_table_none env.table_search c0 url (htab c0 hc0mem)]
    exact hrep
  obtain ⟨hne, hnames⟩ := parse_markdown_lines_sound c0 url rep hrep
  obtain ⟨s0, hs0⟩ := List.exists_mem_of_ne_nil rep.startups hne
  have hcomb : Listing.combine_extracted
      (fun c => Listing.parse_extracted_markdown env.table_search c url) h.extracted_content ≠ [] :=
    combine_extracted_ne_nil _ h.extracted_content c0 rep s0 hc0mem hc0ne hpe hs0 (hnames s0 hs0)
  have hcap : Listing.cap_startups max_startups
      (Listing.combine_extracted
        (fun c => Listing.parse_extracted_markdown env.table_search c url)
        h.extracted_content) ≠ [] := by
    unfold Listing.cap_startups
    split
    · exact take_ne_nil _ _ hcomb hmax
    · exact hcomb
  refine ⟨hcomb, ?_, hcap⟩
  unfold Listing.run_startup_listing_recover
  rw [hso]
  dsimp only
  cases hf : h.final_result with
  | none =>
    dsimp only
    rw [if_pos hcomb]
  | some fr =>
    obtain ⟨hv, hfen⟩ := hfr fr hf
    dsimp only
    by_cases hfre : fr = ""
    · rw [if_pos hfre]
      dsimp only
      rw [if_pos hcomb]
    · rw [if_neg hfre, hv]
      cases hb : env.fenced_json fr with
      | none =>
        dsimp only
        rw [if_pos hcomb]
      | some b =>
        dsimp only
        rw [hfen b hb]
        dsimp only
        rw [if_pos hcomb]

/-- C6 witness: a history whose only usable source is one extraction output
in line-oriented markdown form; the chain returns the sanitized record parsed
by state five. -/
theorem C6_recovery_line_state_witness :
    Listing.run_startup_listing_recover
        { validate_json := fun _ => none, fenced_json := fun _ => none, raw_json := fun _ => none,
          table_search := fun _ => none, validate_done := fun _ => none, join := fun _ _ => none }
        { structured_output := none, final_result := none,
          extracted_content := ["1. **Name**: Foo"], done_datas := [] }
        "https://www.producthunt.com/" 12
      = Listing.sanitize_report (fun _ _ => none)
          { source_url := ⟨"https://www.producthunt.com/"⟩
            startups := Listing.cap_startups 12
              (Listing.combine_extracted
                (fun c => Listing.parse_extracted_markdown (fun _ => none) c "https://www.producthunt.com/")
                ["1. **Name**: Foo"]) } := by
  have hmain := C6_recovery_line_state
    { validate_json := fun _ => none, fenced_json := fun _ => none, raw_json := fun _ => none,
      table_search := fun _ => none, validate_done := fun _ => none, join := fun _ _ => none }
    { structured_output := none, final_result := none,
      extracted_content := ["1. **Name**: Foo"], done_datas := [] }
    "https://www.producthunt.com/" 12
    rfl
    (fun fr hfr => by cases hfr)
    (fun c _ => rfl)
    ⟨"1. **Name**: Foo", by simp, by decide,
      { source_url := ⟨"https://www.producthunt.com/"⟩, startups := [{ name := "Foo" }] }, by rfl⟩
    (by decide)
  exact hmain.2.1
